import Mathlib

/-!
Shallow embedding of the ion-dao `dao` contract (proposal lifecycle,
vote/deposit accounting, status indexing) and proofs about it.

Sources embedded:
  * `contracts/dao/src/proposal.rs`  — `Votes`, `Proposal`, `current_status`,
    `is_passed`, `is_vetoed`, `votes_needed`
  * `contracts/dao/src/threshold.rs` — `Threshold`
  * `contracts/dao/src/helpers.rs`   — `duration_to_expiry`
  * `contracts/dao/src/state.rs`     — storage shape (maps become association
    lists, `Item` becomes a plain field)
  * `contracts/dao/src/execute.rs`   — `check_paused`, `check_status`,
    `create_proposal`, `create_deposit`, `make_deposit_claimable`,
    `update_proposal_status`, `propose`, `deposit`, `claim_deposit`, `vote`,
    `execute`, `close`, `pause_dao`, `update_config`

Machine integers: `Uint128` is modelled as `Nat`.  Where the source uses
`checked_add` / `checked_sub` (which fail on wrap-around), the model uses
explicit `Option`-returning operations with the `2^128` bound; plain `+`
on amounts below that bound agrees with the source.  `Decimal` (cosmwasm
fixed-point, 18 fractional digits) is modelled by its atomic numerator
(`value = atomics / 10^18`); `Decimal * Uint128` floors, exactly as
`Uint128::multiply_ratio` does.
-/

namespace IonDao

/-- `cosmwasm_std::Timestamp` nanoseconds and block height, as in
`proposal.rs::BlockTime`. -/
structure BlockTime where
  height : Nat
  time : Nat
deriving DecidableEq, Repr

instance : Inhabited BlockTime := ⟨⟨0, 0⟩⟩

/-- `cw_utils::Expiration`. -/
inductive Expiration where
  | atHeight : Nat → Expiration
  | atTime : Nat → Expiration
  | never : Expiration
deriving DecidableEq, Repr

instance : Inhabited Expiration := ⟨.atHeight 0⟩

/-- `Expiration::is_expired(block)`: `block.height >= h` / `block.time >= t`. -/
def Expiration.is_expired : Expiration → BlockTime → Bool
  | .atHeight h, b => h ≤ b.height
  | .atTime t, b => t ≤ b.time
  | .never, _ => false

/-- `cw_utils::Duration` (heights, or seconds of time). -/
inductive Duration where
  | height : Nat → Duration
  | time : Nat → Duration
deriving DecidableEq, Repr

/-- `cw_utils::Duration: Add` — mismatched units are an error. -/
def Duration.add : Duration → Duration → Option Duration
  | .height a, .height b => some (.height (a + b))
  | .time a, .time b => some (.time (a + b))
  | _, _ => none

/-- `helpers.rs::duration_to_expiry`; `Timestamp::plus_seconds` adds
`s * 10^9` nanoseconds. -/
def duration_to_expiry (block : BlockTime) (period : Duration) : Expiration :=
  match period with
  | .height h => .atHeight (block.height + h)
  | .time t => .atTime (block.time + t * 1000000000)

/-- `cw3::Vote`. -/
inductive Vote where
  | yes
  | no
  | abstain
  | veto
deriving DecidableEq, Repr

/-- `cw3::Status`.  `Open` is a Lean keyword, so the constructor is named
`opened`. -/
inductive Status where
  | pending
  | opened
  | rejected
  | passed
  | executed
deriving DecidableEq, Repr

/-- Discriminant used by `proposal.status as u8` in the status index keys.
Only injectivity of the coding matters for the index invariants. -/
def Status.code : Status → Nat
  | .pending => 0
  | .opened => 1
  | .rejected => 2
  | .passed => 3
  | .executed => 4

/-- `format!("{:?}", status)` — the Debug string carried by
`ContractError::InvalidProposalStatus`. -/
def Status.debug_str : Status → String
  | .pending => "Pending"
  | .opened => "Open"
  | .rejected => "Rejected"
  | .passed => "Passed"
  | .executed => "Executed"

/-- `Uint128` overflow bound. -/
def UINT128_BOUND : Nat := 340282366920938463463374607431768211456

/-- `Uint128::checked_add`: fails iff the exact sum does not fit. -/
def checked_add (a b : Nat) : Option Nat :=
  if a + b < UINT128_BOUND then some (a + b) else none

/-- `Uint128::checked_sub`: fails iff it would go below zero. -/
def checked_sub (a b : Nat) : Option Nat :=
  if b ≤ a then some (a - b) else none

/-- `proposal.rs::Votes` — weight of votes for each option. -/
structure Votes where
  yes : Nat
  no : Nat
  abstain : Nat
  veto : Nat
deriving DecidableEq, Repr

instance : Inhabited Votes := ⟨⟨0, 0, 0, 0⟩⟩

/-- `Votes::total` — sum of all votes. -/
def Votes.total (v : Votes) : Nat := v.yes + v.no + v.abstain + v.veto

/-- `Votes::submit` uses `checked_add(..).unwrap()`; `none` models the
panic (transaction abort) on `Uint128` overflow. -/
def Votes.submit (v : Votes) (vote : Vote) (weight : Nat) : Option Votes :=
  match vote with
  | .yes => (checked_add v.yes weight).map fun a => { v with yes := a }
  | .abstain => (checked_add v.abstain weight).map fun a => { v with abstain := a }
  | .no => (checked_add v.no weight).map fun a => { v with no := a }
  | .veto => (checked_add v.veto weight).map fun a => { v with veto := a }

/-- `Votes::revoke` uses `checked_sub(..).unwrap()`; `none` models the
panic (transaction abort) on underflow. -/
def Votes.revoke (v : Votes) (vote : Vote) (weight : Nat) : Option Votes :=
  match vote with
  | .yes => (checked_sub v.yes weight).map fun a => { v with yes := a }
  | .no => (checked_sub v.no weight).map fun a => { v with no := a }
  | .abstain => (checked_sub v.abstain weight).map fun a => { v with abstain := a }
  | .veto => (checked_sub v.veto weight).map fun a => { v with veto := a }

/-- `threshold.rs::Threshold`; each `Decimal` is its atomic numerator
over `10^18`. -/
structure Threshold where
  threshold : Nat
  quorum : Nat
  veto_threshold : Nat
deriving DecidableEq, Repr

/-- `Decimal`'s fixed denominator `10^18`. -/
def DECIMAL_FRACTIONAL : Nat := 1000000000000000000

/-- `Decimal::percent j` has atomics `j * 10^16`. -/
def Decimal.percent (j : Nat) : Nat := j * 10000000000000000

/-- `Decimal::permille j` has atomics `j * 10^15`. -/
def Decimal.permille (j : Nat) : Nat := j * 1000000000000000

/-- `proposal.rs::PRECISION_FACTOR`. -/
def PRECISION_FACTOR : Nat := 1000000000

/-- `Decimal * Uint128` in cosmwasm is `multiply_ratio(atomics, 10^18)`,
which floors. -/
def decimal_mul_uint (atomics n : Nat) : Nat :=
  atomics * n / DECIMAL_FRACTIONAL

/-- `proposal.rs::votes_needed`: scale by `PRECISION_FACTOR`, apply the
fraction (flooring), then integer-divide rounding up. -/
def votes_needed (weight : Nat) (percentage : Nat) : Nat :=
  let applied := decimal_mul_uint percentage (PRECISION_FACTOR * weight)
  (applied + PRECISION_FACTOR - 1) / PRECISION_FACTOR

/-- The spec's words, for comparison: "`votes_needed(weight, fraction)` =
ceiling(`fraction * weight`)", i.e. `⌈atomics * weight / 10^18⌉` in exact
arithmetic. -/
def spec_ceil_mul (atomics weight : Nat) : Nat :=
  (atomics * weight + DECIMAL_FRACTIONAL - 1) / DECIMAL_FRACTIONAL

/-- An opaque dispatched command (`CosmosMsg<OsmosisMsg>`): stored and
forwarded, never inspected by this core. -/
def Msg := Nat
deriving DecidableEq, Repr

/-- `proposal.rs::Proposal`.  `deposit_claimable` is the flag used by
`execute.rs` (`make_deposit_claimable`, `claim_deposit`). -/
structure Proposal where
  title : String
  link : String
  description : String
  proposer : String
  status : Status
  msgs : List Msg
  submitted_at : BlockTime
  deposit_ends_at : Expiration
  vote_starts_at : BlockTime
  vote_ends_at : Expiration
  threshold : Threshold
  total_weight : Nat
  votes : Votes
  total_deposit : Nat
  deposit_base_amount : Nat
  deposit_claimable : Bool
deriving DecidableEq, Repr

/-- `Proposal::is_vetoed`. -/
def Proposal.is_vetoed (p : Proposal) : Bool :=
  votes_needed p.total_weight p.threshold.veto_threshold ≤ p.votes.veto

/-- `Proposal::is_passed`. -/
def Proposal.is_passed (p : Proposal) : Bool :=
  if p.votes.total < votes_needed p.total_weight p.threshold.quorum then
    false
  else
    let opinions := p.votes.total - p.votes.abstain
    let passed : Bool := votes_needed opinions p.threshold.threshold ≤ p.votes.yes
    let vetoed := p.is_vetoed
    !vetoed && passed

/-- `Proposal::current_status` — non-mutating derived status. -/
def Proposal.current_status (p : Proposal) (block : BlockTime) : Status :=
  match p.status with
  | .pending =>
    if p.deposit_base_amount ≤ p.total_deposit then .opened
    else if p.deposit_ends_at.is_expired block then .rejected
    else .pending
  | .opened =>
    if p.vote_ends_at.is_expired block then
      if p.is_passed then .passed else .rejected
    else .opened
  | s => s

/-- `Proposal::activate_voting_period`. -/
def Proposal.activate_voting_period (p : Proposal) (block_time : BlockTime)
    (voting_period : Duration) : Proposal :=
  { p with
    status := .opened
    vote_starts_at := block_time
    vote_ends_at := duration_to_expiry block_time voting_period }

/-! ### Storage model

`cw_storage_plus::Map` becomes an association list with at most one entry
per key (`msave` replaces in place), `Map<_, Empty>` index maps become key
sets (`sinsert` / `sdel`), and `Item` becomes a plain field. -/

/-- `Map::may_load`. -/
def mfind {k : Type} {v : Type} [DecidableEq k] : List (k × v) → k → Option v
  | [], _ => none
  | (k', v') :: rest, key => if k' = key then some v' else mfind rest key

/-- `Map::save` — insert or overwrite. -/
def msave {k : Type} {v : Type} [DecidableEq k] :
    List (k × v) → k → v → List (k × v)
  | [], key, val => [(key, val)]
  | (k', v') :: rest, key, val =>
    if k' = key then (key, val) :: rest else (k', v') :: msave rest key val

/-- `Map<_, Empty>::save` — insert the key (idempotent). -/
def sinsert {a : Type} [DecidableEq a] (s : List a) (x : a) : List a :=
  if x ∈ s then s else x :: s

/-- `Map::remove`. -/
def sdel {a : Type} [DecidableEq a] : List a → a → List a
  | [], _ => []
  | y :: rest, x => if y = x then sdel rest x else y :: sdel rest x

/-- `state.rs::Config`. -/
structure Config where
  name : String
  description : String
  threshold : Threshold
  voting_period : Duration
  deposit_period : Duration
  proposal_deposit : Nat
  proposal_min_deposit : Nat
deriving DecidableEq, Repr

/-- `state.rs::Ballot`. -/
structure Ballot where
  weight : Nat
  vote : Vote
deriving DecidableEq, Repr

/-- Per-(proposal, depositor) deposit record as used by `execute.rs`
(`create_deposit`, `claim_deposit`). -/
structure Deposit where
  amount : Nat
  claimed : Bool
deriving DecidableEq, Repr

instance : Inhabited Deposit := ⟨⟨0, false⟩⟩

/-- The contract storage (`state.rs` items and maps).  Addresses are
strings. -/
structure Storage where
  config : Config
  gov_token : String
  staking_contract : String
  dao_paused : Option Expiration
  proposal_count : Nat
  proposals : List (Nat × Proposal)
  idx_props_by_status : List (Nat × Nat)
  idx_props_by_proposer : List (String × Nat)
  ballots : List ((Nat × String) × Ballot)
  deposits : List ((Nat × String) × Deposit)
  idx_deposits_by_depositor : List (String × Nat)
deriving DecidableEq, Repr

/-- `error.rs::ContractError` (the variants these entry points produce).
`std` stands for any propagated `StdError` (not-found, overflow) and for
panics, both of which abort the transaction with no state change. -/
inductive ContractError where
  | std
  | zeroThreshold
  | unreachableThreshold
  | unauthorized
  | expired
  | notExpired
  | invalidProposalStatus (current desired : String)
  | lackOfStakes
  | depositNotClaimable
  | depositAlreadyClaimed
  | paused
deriving DecidableEq, Repr

/-- A message added to the `Response`: a `BankMsg::Send` refund, or one of
the proposal's own dispatched commands. -/
inductive RespMsg where
  | bankSend (to_address : String) (amount : Nat) (denom : String)
  | dispatch (m : Msg)
deriving DecidableEq, Repr

/-- The Voting Power Oracle (the staking contract, `helpers.rs`):
`total_staked` answers `TotalStakedAtHeight { height: None }` at the
current block, `power_at` answers `StakedBalanceAtHeight` at an explicit
height. -/
structure Oracle where
  total_staked : Nat
  power_at : String → Nat → Nat

/-- `helpers.rs::get_voting_power_at_height`. -/
def get_voting_power_at_height (oracle : Oracle) (address : String) (height : Nat) : Nat :=
  oracle.power_at address height

/-- `execute.rs::check_paused`. -/
def check_paused (st : Storage) (block : BlockTime) : Except ContractError Unit :=
  match st.dao_paused with
  | some expiration =>
    if expiration.is_expired block then .ok () else .error .paused
  | none => .ok ()

/-- `execute.rs::check_status`. -/
def check_status (origin desired : Status) : Except ContractError Unit :=
  if origin = desired then .ok ()
  else .error (.invalidProposalStatus origin.debug_str desired.debug_str)

/-- `threshold.rs::valid_percentage` — asserts `0 < percent ≤ 1`. -/
def valid_percentage (percent : Nat) : Except ContractError Unit :=
  if percent = 0 then .error .zeroThreshold
  else if DECIMAL_FRACTIONAL < percent then .error .unreachableThreshold
  else .ok ()

/-- `Threshold::validate`. -/
def Threshold.validate (t : Threshold) : Except ContractError Unit :=
  match valid_percentage t.threshold with
  | .error e => .error e
  | .ok () =>
    match valid_percentage t.quorum with
    | .error e => .error e
    | .ok () => valid_percentage t.veto_threshold

/-- `execute.rs::create_proposal` — primary record plus both secondary
index entries. -/
def create_proposal (st : Storage) (prop_id : Nat) (proposer : String)
    (prop : Proposal) : Storage :=
  { st with
    proposals := msave st.proposals prop_id prop
    idx_props_by_status := sinsert st.idx_props_by_status (prop.status.code, prop_id)
    idx_props_by_proposer := sinsert st.idx_props_by_proposer (proposer, prop_id) }

/-- `execute.rs::create_deposit` — accumulate into the depositor's record,
inserting the reverse-index entry only on a first (zero-amount) record. -/
def create_deposit (st : Storage) (prop_id : Nat) (depositor : String)
    (amount : Nat) : Except ContractError Storage :=
  let deposit := (mfind st.deposits (prop_id, depositor)).getD default
  let st' :=
    if deposit.amount = 0 then
      { st with idx_deposits_by_depositor :=
          sinsert st.idx_deposits_by_depositor (depositor, prop_id) }
    else st
  match checked_add deposit.amount amount with
  | none => .error .std
  | some a =>
    let dep' : Deposit := { deposit with amount := a }
    .ok { st' with deposits := msave st'.deposits (prop_id, depositor) dep' }

/-- `execute.rs::make_deposit_claimable`. -/
def make_deposit_claimable (st : Storage) (prop_id : Nat) (prop : Proposal) :
    Except ContractError (Storage × Proposal) :=
  match mfind st.proposals prop_id with
  | none => .error .std
  | some stored =>
    let stored' : Proposal := { stored with deposit_claimable := true }
    .ok ({ st with proposals := msave st.proposals prop_id stored' },
         { prop with deposit_claimable := true })

/-- `execute.rs::update_proposal_status` — persist the new status and move
the `(status, id)` entry of the by-status index. -/
def update_proposal_status (st : Storage) (prop_id : Nat) (prop : Proposal)
    (desired : Status) : Except ContractError (Storage × Proposal) :=
  let before := prop.status
  match mfind st.proposals prop_id with
  | none => .error .std
  | some stored =>
    .ok ({ st with
            proposals := msave st.proposals prop_id { stored with status := desired }
            idx_props_by_status :=
              sinsert (sdel st.idx_props_by_status (before.code, prop_id))
                (desired.code, prop_id) },
         { prop with status := desired })

/-- `msg.rs::ProposeMsg` payload. -/
structure ProposeMsg where
  title : String
  link : String
  description : String
  msgs : List Msg
deriving DecidableEq, Repr

/-- `execute.rs::propose`.  `received` is the paid amount of the
governance token (`may_pay`); payment-shape errors are out of scope. -/
def propose (st : Storage) (block : BlockTime) (sender : String) (oracle : Oracle)
    (pmsg : ProposeMsg) (received : Nat) :
    Except ContractError (Storage × List RespMsg × Nat) :=
  match check_paused st block with
  | .error e => .error e
  | .ok () =>
    let cfg := st.config
    let gov_token := st.gov_token
    if received < cfg.proposal_min_deposit then .error .unauthorized
    else if oracle.total_staked = 0 then .error .lackOfStakes
    else
      match Duration.add cfg.deposit_period cfg.voting_period with
      | none => .error .std
      | some dep_plus_vote =>
        let prop : Proposal :=
          { title := pmsg.title
            link := pmsg.link
            description := pmsg.description
            proposer := sender
            msgs := pmsg.msgs
            status := .pending
            submitted_at := block
            deposit_ends_at := duration_to_expiry block cfg.deposit_period
            vote_starts_at := default
            vote_ends_at := duration_to_expiry block dep_plus_vote
            votes := default
            threshold := cfg.threshold
            total_weight := oracle.total_staked
            total_deposit := received
            deposit_base_amount := cfg.proposal_deposit
            deposit_claimable := false }
        let activated :=
          if cfg.proposal_deposit ≤ received then
            (prop.activate_voting_period block cfg.voting_period,
             if 0 < received - cfg.proposal_deposit then
               [RespMsg.bankSend sender (received - cfg.proposal_deposit) gov_token]
             else [])
          else (prop, [])
        let id := st.proposal_count + 1
        let st' := { st with proposal_count := id }
        match create_deposit st' id sender received with
        | .error e => .error e
        | .ok st'' =>
          .ok (create_proposal st'' id sender activated.1, activated.2, id)

/-- `execute.rs::deposit`.  The returned string is the `result` response
attribute (`"open"` / `"pending"`). -/
def deposit (st : Storage) (block : BlockTime) (sender : String) (prop_id : Nat)
    (received : Nat) : Except ContractError (Storage × List RespMsg × String) :=
  match check_paused st block with
  | .error e => .error e
  | .ok () =>
    let cfg := st.config
    let gov_token := st.gov_token
    if received = 0 then .error .unauthorized
    else
      match mfind st.proposals prop_id with
      | none => .error .std
      | some prop =>
        match check_status prop.status .pending with
        | .error e => .error e
        | .ok () =>
          if prop.deposit_ends_at.is_expired block then .error .expired
          else
            match create_deposit st prop_id sender received with
            | .error e => .error e
            | .ok st1 =>
              let prop := { prop with total_deposit := prop.total_deposit + received }
              if cfg.proposal_deposit ≤ prop.total_deposit then
                match update_proposal_status st1 prop_id prop .opened with
                | .error e => .error e
                | .ok (st2, prop2) =>
                  let prop3 := prop2.activate_voting_period block cfg.voting_period
                  let st3 := { st2 with proposals := msave st2.proposals prop_id prop3 }
                  let gap := prop3.total_deposit - cfg.proposal_deposit
                  let msgs :=
                    if 0 < gap then [RespMsg.bankSend sender gap gov_token] else []
                  .ok (st3, msgs, "open")
              else
                .ok ({ st1 with proposals := msave st1.proposals prop_id prop },
                     [], "pending")

/-- `execute.rs::claim_deposit`. -/
def claim_deposit (st : Storage) (block : BlockTime) (sender : String)
    (prop_id : Nat) : Except ContractError (Storage × List RespMsg) :=
  match check_paused st block with
  | .error e => .error e
  | .ok () =>
    match mfind st.proposals prop_id with
    | none => .error .std
    | some prop =>
      if prop.deposit_claimable = false then .error .depositNotClaimable
      else
        match mfind st.deposits (prop_id, sender) with
        | none => .error .std
        | some dep =>
          if dep.claimed then .error .depositAlreadyClaimed
          else
            let dep' := { dep with claimed := true }
            .ok ({ st with deposits := msave st.deposits (prop_id, sender) dep' },
                 [RespMsg.bankSend sender dep'.amount st.gov_token])

/-- `execute.rs::vote`. -/
def vote (st : Storage) (block : BlockTime) (sender : String) (oracle : Oracle)
    (prop_id : Nat) (v : Vote) : Except ContractError Storage :=
  match check_paused st block with
  | .error e => .error e
  | .ok () =>
    match mfind st.proposals prop_id with
    | none => .error .std
    | some prop =>
      match check_status prop.status .opened with
      | .error e => .error e
      | .ok () =>
        if prop.vote_ends_at.is_expired block then .error .expired
        else
          let vote_power :=
            get_voting_power_at_height oracle sender prop.vote_starts_at.height
          if vote_power = 0 then .error .unauthorized
          else
            let revoked :=
              match mfind st.ballots (prop_id, sender) with
              | some ballot => prop.votes.revoke ballot.vote ballot.weight
              | none => some prop.votes
            match revoked with
            | none => .error .std
            | some vs =>
              match vs.submit v vote_power with
              | none => .error .std
              | some vs' =>
                .ok { st with
                  ballots := msave st.ballots (prop_id, sender) ⟨vote_power, v⟩
                  proposals := msave st.proposals prop_id { prop with votes := vs' } }

/-- `execute.rs::execute`. -/
def execute (st : Storage) (block : BlockTime) (prop_id : Nat) :
    Except ContractError (Storage × List RespMsg) :=
  match check_paused st block with
  | .error e => .error e
  | .ok () =>
    match mfind st.proposals prop_id with
    | none => .error .std
    | some prop =>
      if prop.vote_ends_at.is_expired block = false then .error .notExpired
      else
        match check_status (prop.current_status block) .passed with
        | .error e => .error e
        | .ok () =>
          match update_proposal_status st prop_id prop .executed with
          | .error e => .error e
          | .ok (st1, prop1) =>
            match make_deposit_claimable st1 prop_id prop1 with
            | .error e => .error e
            | .ok (st2, prop2) =>
              .ok (st2, prop2.msgs.map RespMsg.dispatch)

/-- `execute.rs::close`.  The returned string is the `result` response
attribute (`"refund"` / `"confiscate"`). -/
def close (st : Storage) (block : BlockTime) (prop_id : Nat) :
    Except ContractError (Storage × List RespMsg × String) :=
  match check_paused st block with
  | .error e => .error e
  | .ok () =>
    match mfind st.proposals prop_id with
    | none => .error .std
    | some prop =>
      let gate : Except ContractError Unit :=
        match prop.status with
        | .pending =>
          if prop.deposit_ends_at.is_expired block = false then .error .notExpired
          else .ok ()
        | .opened =>
          if prop.vote_ends_at.is_expired block = false then .error .notExpired
          else .ok ()
        | s => .error (.invalidProposalStatus s.debug_str "pending | open")
      match gate with
      | .error e => .error e
      | .ok () =>
        let prev_status := prop.status
        match check_status (prop.current_status block) .rejected with
        | .error e => .error e
        | .ok () =>
          match update_proposal_status st prop_id prop .rejected with
          | .error e => .error e
          | .ok (st1, prop1) =>
            if prev_status = .opened ∧ prop1.is_vetoed = false then
              match make_deposit_claimable st1 prop_id prop1 with
              | .error e => .error e
              | .ok (st2, _) => .ok (st2, [], "refund")
            else .ok (st1, [], "confiscate")

/-- `execute.rs::pause_dao` — only the contract itself may call. -/
def pause_dao (st : Storage) (contract_addr sender : String)
    (expiration : Expiration) : Except ContractError Storage :=
  if contract_addr ≠ sender then .error .unauthorized
  else .ok { st with dao_paused := some expiration }

/-- `execute.rs::update_config` — only the contract itself may call. -/
def update_config (st : Storage) (contract_addr sender : String) (cfg : Config) :
    Except ContractError Storage :=
  if contract_addr ≠ sender then .error .unauthorized
  else
    match cfg.threshold.validate with
    | .error e => .error e
    | .ok () => .ok { st with config := cfg }

/-! ### Operation sequences

A ledger applies one state-changing call at a time; a failed call leaves
storage untouched.  `step` commits the storage of a successful call and
drops the storage of a failed one, and `run` folds a call sequence from an
instantiated contract. -/

/-- One external state-mutating call with its inputs. -/
inductive Op where
  | propose (block : BlockTime) (sender : String) (oracle : Oracle)
      (pmsg : ProposeMsg) (received : Nat)
  | deposit (block : BlockTime) (sender : String) (prop_id : Nat) (received : Nat)
  | claimDeposit (block : BlockTime) (sender : String) (prop_id : Nat)
  | vote (block : BlockTime) (sender : String) (oracle : Oracle) (prop_id : Nat)
      (v : Vote)
  | execute (block : BlockTime) (prop_id : Nat)
  | close (block : BlockTime) (prop_id : Nat)
  | pauseDao (sender : String) (expiration : Expiration)
  | updateConfig (sender : String) (cfg : Config)

/-- Apply one call; on error the pre-state is kept (atomic abort). -/
def step (self : String) (st : Storage) (op : Op) : Storage :=
  match op with
  | .propose block sender oracle pmsg received =>
    match propose st block sender oracle pmsg received with
    | .ok (st', _, _) => st'
    | .error _ => st
  | .deposit block sender prop_id received =>
    match deposit st block sender prop_id received with
    | .ok (st', _, _) => st'
    | .error _ => st
  | .claimDeposit block sender prop_id =>
    match claim_deposit st block sender prop_id with
    | .ok (st', _) => st'
    | .error _ => st
  | .vote block sender oracle prop_id v =>
    match vote st block sender oracle prop_id v with
    | .ok st' => st'
    | .error _ => st
  | .execute block prop_id =>
    match execute st block prop_id with
    | .ok (st', _) => st'
    | .error _ => st
  | .close block prop_id =>
    match close st block prop_id with
    | .ok (st', _, _) => st'
    | .error _ => st
  | .pauseDao sender expiration =>
    match pause_dao st self sender expiration with
    | .ok st' => st'
    | .error _ => st
  | .updateConfig sender cfg =>
    match update_config st self sender cfg with
    | .ok st' => st'
    | .error _ => st

/-- Freshly instantiated storage: no proposals, empty maps and indexes. -/
def init_storage (cfg : Config) (gov staking : String) : Storage :=
  { config := cfg
    gov_token := gov
    staking_contract := staking
    dao_paused := none
    proposal_count := 0
    proposals := []
    idx_props_by_status := []
    idx_props_by_proposer := []
    ballots := []
    deposits := []
    idx_deposits_by_depositor := [] }

/-- Fold a call sequence. -/
def run (self : String) (st : Storage) (ops : List Op) : Storage :=
  ops.foldl (step self) st

/-! ### Invariant vocabulary -/

/-- The tally bucket of `Votes` selected by a vote option. -/
def bucket (v : Votes) (o : Vote) : Nat :=
  match o with
  | .yes => v.yes
  | .no => v.no
  | .abstain => v.abstain
  | .veto => v.veto

/-- A single ballot's contribution to the `(pid, o)` tally bucket. -/
def contrib (key : Nat × String) (b : Ballot) (pid : Nat) (o : Vote) : Nat :=
  if key.1 = pid ∧ b.vote = o then b.weight else 0

/-- Total weight the ballot ledger contributes to the `(pid, o)` bucket. -/
def bsum (bs : List ((Nat × String) × Ballot)) (pid : Nat) (o : Vote) : Nat :=
  match bs with
  | [] => 0
  | (key, b) :: rest => contrib key b pid o + bsum rest pid o

/-- Global storage invariant maintained by every call.  `tally` is the
no-double-count property (each bucket is exactly the ballot-ledger sum);
`idx_match` is the status-index consistency; `weight_pos` records that no
proposal is created over a zero-weight electorate. -/
structure Inv (st : Storage) : Prop where
  prop_keys_nodup : (st.proposals.map Prod.fst).Nodup
  prop_pid_le : ∀ kv ∈ st.proposals, kv.1 ≤ st.proposal_count
  ballot_keys_nodup : (st.ballots.map Prod.fst).Nodup
  ballot_pid_le : ∀ kb ∈ st.ballots, kb.1.1 ≤ st.proposal_count
  idx_nodup : st.idx_props_by_status.Nodup
  idx_pid_le : ∀ e ∈ st.idx_props_by_status, e.2 ≤ st.proposal_count
  idx_match : ∀ s pid, (s, pid) ∈ st.idx_props_by_status ↔
    ∃ p, mfind st.proposals pid = some p ∧ p.status.code = s
  tally : ∀ pid p, mfind st.proposals pid = some p →
    ∀ o, bucket p.votes o = bsum st.ballots pid o
  weight_pos : ∀ pid p, mfind st.proposals pid = some p → 0 < p.total_weight

/-! ### Concrete fixtures for witnesses and counterexamples -/

/-- `Proposal: Default` from `proposal.rs` (`Threshold: Default` is
`1/2`, `1/3`, `1/3` in `Decimal` atomics, `Decimal::from_ratio` flooring). -/
def emptyProp : Proposal :=
  { title := ""
    link := ""
    description := ""
    proposer := ""
    status := .pending
    msgs := []
    submitted_at := default
    deposit_ends_at := .atHeight 0
    vote_starts_at := default
    vote_ends_at := .atHeight 0
    threshold :=
      { threshold := 500000000000000000
        quorum := 333333333333333333
        veto_threshold := 333333333333333333 }
    total_weight := 0
    votes := default
    total_deposit := 0
    deposit_base_amount := 0
    deposit_claimable := false }

/-- 50% pass threshold, 40% quorum, 33% veto — the triple used throughout
the repository's own tests. -/
def exThreshold : Threshold :=
  { threshold := Decimal.percent 50
    quorum := Decimal.percent 40
    veto_threshold := Decimal.percent 33 }

/-- An `Open` proposal used by several witnesses: voting ends at height
100, electorate weight 30, tally 7/3/2/1. -/
def exOpenProp : Proposal :=
  { emptyProp with
    status := .opened
    deposit_ends_at := .atHeight 10
    vote_starts_at := ⟨20, 0⟩
    vote_ends_at := .atHeight 100
    threshold := exThreshold
    total_weight := 30
    votes := { yes := 7, no := 3, abstain := 2, veto := 1 }
    total_deposit := 100
    deposit_base_amount := 100 }

/-- A unanimous-yes variant of `exOpenProp`: even the conservative
"every uncast vote becomes no" threshold reading holds. -/
def exAllYesProp : Proposal :=
  { exOpenProp with votes := { yes := 30, no := 0, abstain := 0, veto := 0 } }

/-- Config with deposit requirement 100 and minimum 10, height periods. -/
def exConfig : Config :=
  { name := "dao"
    description := "dao"
    threshold := exThreshold
    voting_period := .height 10
    deposit_period := .height 15
    proposal_deposit := 100
    proposal_min_deposit := 10 }

/-- The Pending proposal of the C4 deposit scenario: deposit window ends
at height 60, requirement 100, nothing collected yet. -/
def exPendingProp : Proposal :=
  { emptyProp with
    status := .pending
    deposit_ends_at := .atHeight 60
    vote_ends_at := .atHeight 85
    threshold := exThreshold
    total_weight := 100
    deposit_base_amount := 100 }

/-- Pre-state of the C4 deposit scenario: one Pending proposal (id 1) with
no deposits collected yet, deposit window open at height 50. -/
def exDepositState : Storage :=
  { init_storage exConfig "ion" "staking" with
    proposal_count := 1
    proposals := [(1, exPendingProp)]
    idx_props_by_status := [(Status.pending.code, 1)] }

/-- C4 scenario, first call: depositor "alice" pays 80 at height 50. -/
def exDeposit1 : Except ContractError (Storage × List RespMsg × String) :=
  deposit exDepositState ⟨50, 0⟩ "alice" 1 80

/-- C4 scenario, second call: depositor "bob" pays 30 at height 51. -/
def exDeposit2 : Except ContractError (Storage × List RespMsg × String) :=
  match exDeposit1 with
  | .ok (st, _, _) => deposit st ⟨51, 0⟩ "bob" 1 30
  | .error e => .error e

/-- An oracle with staked supply 100 and weight 10 for every address at
every height. -/
def exOracle : Oracle :=
  { total_staked := 100, power_at := fun _ _ => 10 }

/-- `exDepositState` with the DAO paused until height 100. -/
def exPausedState : Storage :=
  { exDepositState with dao_paused := some (.atHeight 100) }

/-- Storage holding the open proposal `exOpenProp` under id 1. -/
def exOpenState : Storage :=
  { init_storage exConfig "ion" "staking" with
    proposal_count := 1
    proposals := [(1, exOpenProp)]
    idx_props_by_status := [(Status.opened.code, 1)] }

/-- An oracle reporting weight 0 for every address at every height. -/
def exZeroOracle : Oracle :=
  { total_staked := 100, power_at := fun _ _ => 0 }

/-- An oracle reporting zero total staked supply. -/
def exZeroSupplyOracle : Oracle :=
  { total_staked := 0, power_at := fun _ _ => 0 }

/-- A minimal proposal payload. -/
def exProposeMsg : ProposeMsg :=
  { title := "t", link := "l", description := "d", msgs := [] }

/-- A two-call history: propose with the full deposit (opens immediately),
then one yes vote. -/
def exOps : List Op :=
  [.propose ⟨10, 0⟩ "alice" exOracle exProposeMsg 100,
   .vote ⟨11, 0⟩ "bob" exOracle 1 .yes]

/-- The storage reached by `exOps` from a fresh instantiation. -/
def exRunState : Storage :=
  run "dao" (init_storage exConfig "ion" "stk") exOps

/-- The record `propose` builds before the optional immediate activation
(`deposit_ends_at = now + deposit_period`, frozen threshold and oracle
total weight, `total_deposit = received`). -/
def proposed_record (st : Storage) (block : BlockTime) (sender : String)
    (oracle : Oracle) (pmsg : ProposeMsg) (received : Nat)
    (dv : Duration) : Proposal :=
  { title := pmsg.title
    link := pmsg.link
    description := pmsg.description
    proposer := sender
    msgs := pmsg.msgs
    status := .pending
    submitted_at := block
    deposit_ends_at := duration_to_expiry block st.config.deposit_period
    vote_starts_at := default
    vote_ends_at := duration_to_expiry block dv
    votes := default
    threshold := st.config.threshold
    total_weight := oracle.total_staked
    total_deposit := received
    deposit_base_amount := st.config.proposal_deposit
    deposit_claimable := false }

end IonDao

namespace IonDao

/-! ### Helper lemmas -/

/-- `is_passed` unpacked: quorum, threshold over opinions, and no veto. -/
theorem is_passed_iff (p : Proposal) :
    p.is_passed = true ↔
      votes_needed p.total_weight p.threshold.quorum ≤ p.votes.total ∧
      votes_needed (p.votes.total - p.votes.abstain) p.threshold.threshold ≤ p.votes.yes ∧
      p.votes.veto < votes_needed p.total_weight p.threshold.veto_threshold := by
  simp only [Proposal.is_passed, Proposal.is_vetoed]
  split_ifs with h
  · simp only [false_iff]
    omega
  · simp only [Bool.and_eq_true, Bool.not_eq_true', decide_eq_true_eq,
      decide_eq_false_iff_not, not_le]
    omega

/-- Derived status of an expired open proposal. -/
theorem current_status_open_expired (p : Proposal) (block : BlockTime)
    (hst : p.status = .opened) (hexp : p.vote_ends_at.is_expired block = true) :
    p.current_status block = if p.is_passed then .passed else .rejected := by
  simp [Proposal.current_status, hst, hexp]

/-- Derived status of an open proposal inside its voting window. -/
theorem current_status_open_live (p : Proposal) (block : BlockTime)
    (hst : p.status = .opened) (hexp : p.vote_ends_at.is_expired block = false) :
    p.current_status block = .opened := by
  simp [Proposal.current_status, hst, hexp]

/-! ### C1 — final outcome of an expired open proposal -/

/-- C1: for a stored-`Open` proposal whose voting window has expired, the
derived status is `Passed` iff the cast total meets the quorum requirement,
yes meets the threshold requirement over non-abstain opinions, and veto is
below the veto requirement over `total_weight`; otherwise it is
`Rejected`. -/
theorem c1_final_outcome (p : Proposal) (block : BlockTime)
    (hst : p.status = .opened) (hexp : p.vote_ends_at.is_expired block = true) :
    (p.current_status block = .passed ↔
      (votes_needed p.total_weight p.threshold.quorum ≤ p.votes.total ∧
       votes_needed (p.votes.total - p.votes.abstain) p.threshold.threshold ≤ p.votes.yes ∧
       p.votes.veto < votes_needed p.total_weight p.threshold.veto_threshold)) ∧
    (p.current_status block ≠ .passed → p.current_status block = .rejected) := by
  rw [current_status_open_expired p block hst hexp]
  constructor
  · rw [← is_passed_iff]
    cases hp : p.is_passed <;> simp [hp]
  · cases hp : p.is_passed <;> simp [hp]

/-- C1 witness: the 7/3/2/1 tally over weight 30 with a 50/40/33 threshold
triple passes after expiry. -/
theorem c1_final_outcome_witness : exOpenProp.current_status ⟨120, 0⟩ = .passed :=
  (c1_final_outcome exOpenProp ⟨120, 0⟩ (by decide) (by decide)).1.mpr (by decide)

/-! ### C2 — no early resolution before the voting window expires -/

/-- C2 counterexample: a unanimous-yes open proposal that satisfies even
the conservative pre-expiry threshold reading
(`yes ≥ votes_needed(total_weight - abstain, threshold)`) still derives
status `Open`, not `Passed`, before `vote_ends_at` — the code has no
early-pass evaluation. -/
theorem c2_no_early_pass_counterexample :
    votes_needed (exAllYesProp.total_weight - exAllYesProp.votes.abstain)
        exAllYesProp.threshold.threshold ≤ exAllYesProp.votes.yes ∧
    votes_needed exAllYesProp.total_weight exAllYesProp.threshold.quorum ≤
        exAllYesProp.votes.total ∧
    exAllYesProp.is_vetoed = false ∧
    exAllYesProp.status = .opened ∧
    exAllYesProp.vote_ends_at.is_expired ⟨50, 0⟩ = false ∧
    exAllYesProp.current_status ⟨50, 0⟩ = .opened ∧
    exAllYesProp.current_status ⟨50, 0⟩ ≠ .passed := by
  decide

/-- C2 amended: before its voting window expires an `Open` proposal's
derived status is always `Open` — `is_passed` is only consulted after
expiry, so the proposal never resolves early to `Passed` and never
resolves early to `Rejected`. -/
theorem c2_open_stays_open (p : Proposal) (block : BlockTime)
    (hst : p.status = .opened) (hexp : p.vote_ends_at.is_expired block = false) :
    p.current_status block = .opened ∧
    p.current_status block ≠ .rejected ∧
    p.current_status block ≠ .passed := by
  rw [current_status_open_live p block hst hexp]
  exact ⟨rfl, by decide, by decide⟩

/-- C2 witness: the passing-tally proposal stays `Open` at height 50. -/
theorem c2_open_stays_open_witness : exOpenProp.current_status ⟨50, 0⟩ = .opened :=
  (c2_open_stays_open exOpenProp ⟨50, 0⟩ (by decide) (by decide)).1

/-! ### C3 — votes_needed is a ceiling -/

/-- C3 counterexample: for the valid fraction `10^-18` (atomics 1) and
weight 1 the code returns 0, strictly below the exact ceiling 1 — the
flooring `Decimal` multiplication loses the sub-`PRECISION_FACTOR` part,
so `votes_needed` can under-round for fractions finer than 9 decimal
digits. -/
theorem c3_under_round_counterexample :
    votes_needed 1 1 = 0 ∧ spec_ceil_mul 1 1 = 1 ∧
    votes_needed 1 1 < spec_ceil_mul 1 1 := by
  decide

/-- C3 amended: whenever the fraction's atomic numerator is a multiple of
`PRECISION_FACTOR` — in particular every `Decimal::percent` /
`Decimal::permille` fraction — `votes_needed` equals the exact ceiling of
`fraction * weight` and so never under-rounds there; and the three
concrete examples hold exactly. -/
theorem c3_votes_needed_rounds_up :
    (∀ weight q : Nat,
      votes_needed weight (PRECISION_FACTOR * q) =
        spec_ceil_mul (PRECISION_FACTOR * q) weight) ∧
    votes_needed 3 (Decimal.permille 333) = 1 ∧
    votes_needed 3 (Decimal.permille 334) = 2 ∧
    votes_needed 34 (Decimal.percent 50) = 17 := by
  refine ⟨fun weight q => ?_, by decide, by decide, by decide⟩
  simp only [votes_needed, spec_ceil_mul, decimal_mul_uint, DECIMAL_FRACTIONAL,
    PRECISION_FACTOR]
  have h1 : 1000000000 * q * (1000000000 * weight)
      = q * weight * 1000000000000000000 := by ring
  rw [h1, Nat.mul_div_cancel _ (by norm_num)]
  have h2 : 1000000000 * q * weight = 1000000000 * (q * weight) := by ring
  rw [h2]
  generalize q * weight = m
  omega

end IonDao

namespace IonDao

/-! ### Association-list and key-set lemmas -/

theorem mfind_msave_self {k v : Type} [DecidableEq k] (m : List (k × v))
    (key : k) (val : v) : mfind (msave m key val) key = some val := by
  induction m with
  | nil => simp [msave, mfind]
  | cons hd tl ih =>
    by_cases h : hd.1 = key
    · simp [msave, mfind, h]
    · simp [msave, mfind, h, ih]

theorem mfind_msave_ne {k v : Type} [DecidableEq k] (m : List (k × v))
    (key key' : k) (val : v) (h : key' ≠ key) :
    mfind (msave m key val) key' = mfind m key' := by
  have h2 : ¬(key = key') := fun he => h he.symm
  induction m with
  | nil => simp [msave, mfind, h2]
  | cons hd tl ih =>
    by_cases hh : hd.1 = key
    · simp only [msave, hh, if_true]
      simp [mfind, h2, hh]
    · simp only [msave, hh, if_false]
      by_cases hh' : hd.1 = key'
      · simp [mfind, hh']
      · simp [mfind, hh', ih]

theorem mem_msave {k v : Type} [DecidableEq k] (m : List (k × v))
    (key : k) (val : v) (kv : k × v) (h : kv ∈ msave m key val) :
    kv = (key, val) ∨ kv ∈ m := by
  induction m with
  | nil => simpa [msave] using h
  | cons hd tl ih =>
    by_cases hh : hd.1 = key
    · simp only [msave, hh, if_true, List.mem_cons] at h
      rcases h with h | h
      · exact Or.inl h
      · exact Or.inr (List.mem_cons_of_mem _ h)
    · simp only [msave, hh, if_false, List.mem_cons] at h
      rcases h with h | h
      · exact Or.inr (h ▸ List.mem_cons_self _ _)
      · rcases ih h with h' | h'
        · exact Or.inl h'
        · exact Or.inr (List.mem_cons_of_mem _ h')

theorem mkeys_msave_subset {k v : Type} [DecidableEq k] (m : List (k × v))
    (key : k) (val : v) (x : k) (h : x ∈ (msave m key val).map Prod.fst) :
    x = key ∨ x ∈ m.map Prod.fst := by
  rcases List.mem_map.mp h with ⟨kv, hkv, rfl⟩
  rcases mem_msave m key val kv hkv with h' | h'
  · exact Or.inl (by rw [h'])
  · exact Or.inr (List.mem_map_of_mem _ h')

theorem mkeys_nodup_msave {k v : Type} [DecidableEq k] (m : List (k × v))
    (key : k) (val : v) (h : (m.map Prod.fst).Nodup) :
    ((msave m key val).map Prod.fst).Nodup := by
  induction m with
  | nil => simp [msave]
  | cons hd tl ih =>
    by_cases hh : hd.1 = key
    · simpa [msave, hh] using h
    · simp only [msave, hh, if_false, List.map_cons, List.nodup_cons] at h ⊢
      refine ⟨fun hmem => ?_, ih h.2⟩
      rcases mkeys_msave_subset tl key val hd.1 hmem with h' | h'
      · exact hh h'
      · exact h.1 h'

theorem mfind_eq_none_of_bound {v : Type} (m : List (Nat × v)) (n pid : Nat)
    (hb : ∀ kv ∈ m, kv.1 ≤ n) (hgt : n < pid) : mfind m pid = none := by
  induction m with
  | nil => rfl
  | cons hd tl ih =>
    have h1 : hd.1 ≠ pid := by
      have := hb hd (List.mem_cons_self _ _)
      omega
    simp only [mfind, h1, if_false]
    exact ih fun kv hkv => hb kv (List.mem_cons_of_mem _ hkv)

theorem mfind_mem {k v : Type} [DecidableEq k] (m : List (k × v)) (key : k)
    (val : v) (h : mfind m key = some val) : (key, val) ∈ m := by
  induction m with
  | nil => simp [mfind] at h
  | cons hd tl ih =>
    by_cases hh : hd.1 = key
    · simp only [mfind, hh, if_true, Option.some_inj] at h
      subst h
      exact hh ▸ List.mem_cons_self _ _
    · simp only [mfind, hh, if_false] at h
      exact List.mem_cons_of_mem _ (ih h)

theorem mem_sinsert {a : Type} [DecidableEq a] (s : List a) (x y : a) :
    y ∈ sinsert s x ↔ y = x ∨ y ∈ s := by
  unfold sinsert
  split_ifs with h
  · constructor
    · exact Or.inr
    · rintro (rfl | hy)
      · exact h
      · exact hy
  · simp [List.mem_cons]

theorem sinsert_nodup {a : Type} [DecidableEq a] (s : List a) (x : a)
    (h : s.Nodup) : (sinsert s x).Nodup := by
  unfold sinsert
  split_ifs with hm
  · exact h
  · exact List.nodup_cons.mpr ⟨hm, h⟩

theorem mem_sdel {a : Type} [DecidableEq a] (s : List a) (x y : a) :
    y ∈ sdel s x ↔ y ∈ s ∧ y ≠ x := by
  induction s with
  | nil => simp [sdel]
  | cons hd tl ih =>
    by_cases hh : hd = x
    · subst hh
      simp only [sdel, if_true, List.mem_cons, ih]
      constructor
      · rintro ⟨hy, hne⟩
        exact ⟨Or.inr hy, hne⟩
      · rintro ⟨rfl | hy, hne⟩
        · exact absurd rfl hne
        · exact ⟨hy, hne⟩
    · simp only [sdel, hh, if_false, List.mem_cons, ih]
      constructor
      · rintro (rfl | ⟨hy, hne⟩)
        · exact ⟨Or.inl rfl, hh⟩
        · exact ⟨Or.inr hy, hne⟩
      · rintro ⟨rfl | hy, hne⟩
        · exact Or.inl rfl
        · exact Or.inr ⟨hy, hne⟩

theorem sdel_nodup {a : Type} [DecidableEq a] (s : List a) (x : a)
    (h : s.Nodup) : (sdel s x).Nodup := by
  induction s with
  | nil => simp [sdel]
  | cons hd tl ih =>
    rcases List.nodup_cons.mp h with ⟨hhd, htl⟩
    by_cases hh : hd = x
    · simp only [sdel, hh, if_true]
      exact ih htl
    · simp only [sdel, hh, if_false]
      exact List.nodup_cons.mpr ⟨fun hm => hhd ((mem_sdel tl x hd).mp hm).1, ih htl⟩

end IonDao

namespace IonDao

theorem except_map_ok {e a b : Type} (f : a → b) (x : a) :
    Except.map (ε := e) f (.ok x) = .ok (f x) := rfl

/-! ### Tally-bucket lemmas -/

theorem bsum_msave_none (bs : List ((Nat × String) × Ballot))
    (key : Nat × String) (b : Ballot) (pid : Nat) (o : Vote)
    (h : mfind bs key = none) :
    bsum (msave bs key b) pid o = bsum bs pid o + contrib key b pid o := by
  induction bs with
  | nil => simp [msave, bsum, Nat.add_comm]
  | cons hd tl ih =>
    by_cases hh : hd.1 = key
    · simp [mfind, hh] at h
    · simp only [mfind, hh, if_false] at h
      simp only [msave, hh, if_false, bsum, ih h]
      omega

theorem bsum_msave_some (bs : List ((Nat × String) × Ballot))
    (key : Nat × String) (b old : Ballot) (pid : Nat) (o : Vote)
    (h : mfind bs key = some old) :
    bsum (msave bs key b) pid o + contrib key old pid o =
      bsum bs pid o + contrib key b pid o := by
  induction bs with
  | nil => simp [mfind] at h
  | cons hd tl ih =>
    by_cases hh : hd.1 = key
    · simp only [mfind, hh, if_true, Option.some_inj] at h
      subst h
      simp only [msave, hh, if_true, bsum]
      omega
    · simp only [mfind, hh, if_false] at h
      simp only [msave, hh, if_false, bsum]
      have := ih h
      omega

end IonDao

namespace IonDao

theorem bsum_msave_other_pid (bs : List ((Nat × String) × Ballot))
    (key : Nat × String) (b : Ballot) (pid : Nat) (o : Vote)
    (h : key.1 ≠ pid) :
    bsum (msave bs key b) pid o = bsum bs pid o := by
  induction bs with
  | nil => simp [msave, bsum, contrib, h]
  | cons hd tl ih =>
    by_cases hh : hd.1 = key
    · simp only [msave, hh, if_true, bsum]
      simp [contrib, h, hh]
    · simp only [msave, hh, if_false, bsum, ih]

theorem contrib_le_bsum (bs : List ((Nat × String) × Ballot))
    (key : Nat × String) (b : Ballot) (pid : Nat) (o : Vote)
    (h : mfind bs key = some b) :
    contrib key b pid o ≤ bsum bs pid o := by
  induction bs with
  | nil => simp [mfind] at h
  | cons hd tl ih =>
    by_cases hh : hd.1 = key
    · simp only [mfind, hh, if_true, Option.some_inj] at h
      subst h
      simp only [bsum, hh]
      omega
    · simp only [mfind, hh, if_false] at h
      simp only [bsum]
      have := ih h
      omega

theorem bsum_zero_of_pid_gt (bs : List ((Nat × String) × Ballot))
    (n pid : Nat) (o : Vote) (hb : ∀ kb ∈ bs, kb.1.1 ≤ n) (hgt : n < pid) :
    bsum bs pid o = 0 := by
  induction bs with
  | nil => rfl
  | cons hd tl ih =>
    have h1 : hd.1.1 ≠ pid := by
      have := hb hd (List.mem_cons_self _ _)
      omega
    simp only [bsum, contrib]
    rw [if_neg (by simp [h1]), ih fun kb hkb => hb kb (List.mem_cons_of_mem _ hkb)]

/-- A successful `submit` adds the weight to exactly the chosen bucket. -/
theorem bucket_submit (v v' : Votes) (o : Vote) (w : Nat)
    (h : v.submit o w = some v') (o' : Vote) :
    bucket v' o' = bucket v o' + (if o' = o then w else 0) := by
  cases o <;> simp only [Votes.submit, checked_add] at h <;> split at h <;>
    simp only [Option.map_some', Option.map_none', Option.some.injEq,
      reduceCtorEq] at h <;> subst h <;> cases o' <;> simp [bucket]

/-- A successful `revoke` removes the weight from exactly the chosen
bucket. -/
theorem bucket_revoke (v v' : Votes) (o : Vote) (w : Nat)
    (h : v.revoke o w = some v') (o' : Vote) :
    bucket v' o' + (if o' = o then w else 0) = bucket v o' := by
  cases o <;> simp only [Votes.revoke, checked_sub] at h <;> split at h <;>
    simp only [Option.map_some', Option.map_none', Option.some.injEq,
      reduceCtorEq] at h <;> subst h <;> cases o' <;> simp [bucket] <;> omega

/-- `revoke` succeeds exactly when the weight fits in the bucket. -/
theorem revoke_isSome_iff (v : Votes) (o : Vote) (w : Nat) :
    (v.revoke o w).isSome = true ↔ w ≤ bucket v o := by
  cases o <;> simp [Votes.revoke, checked_sub, bucket]

end IonDao

namespace IonDao

/-! ### Error classification -/

theorem create_deposit_error_eq (st : Storage) (pid : Nat) (d : String)
    (a : Nat) (e : ContractError) (h : create_deposit st pid d a = .error e) :
    e = .std := by
  simp only [create_deposit] at h
  split at h <;> simp_all

theorem update_proposal_status_error_eq (st : Storage) (pid : Nat)
    (prop : Proposal) (s : Status) (e : ContractError)
    (h : update_proposal_status st pid prop s = .error e) : e = .std := by
  simp only [update_proposal_status] at h
  split at h <;> simp_all

theorem make_deposit_claimable_error_eq (st : Storage) (pid : Nat)
    (prop : Proposal) (e : ContractError)
    (h : make_deposit_claimable st pid prop = .error e) : e = .std := by
  simp only [make_deposit_claimable] at h
  split at h <;> simp_all

theorem check_status_error_eq (a b : Status) (e : ContractError)
    (h : check_status a b = .error e) :
    e = .invalidProposalStatus a.debug_str b.debug_str := by
  simp only [check_status] at h
  split at h <;> simp_all

end IonDao

namespace IonDao

/-! ### C10 — the pause gate -/

/-- C10: while `DAO_PAUSED` holds an unexpired expiration, every
state-mutating entry point — Propose, Deposit, ClaimDeposit, Vote,
Execute, Close — fails with the `Paused` error and `step` leaves storage
unchanged; once the pause expiration has passed, the pause check succeeds
and none of these operations can fail with `Paused` — they proceed under
their normal rules. -/
theorem c10_pause_gate (st : Storage) (block : BlockTime) (e : Expiration)
    (hp : st.dao_paused = some e) :
    (e.is_expired block = false →
      (∀ sender oracle pmsg received,
        propose st block sender oracle pmsg received = .error .paused) ∧
      (∀ sender pid received, deposit st block sender pid received = .error .paused) ∧
      (∀ sender pid, claim_deposit st block sender pid = .error .paused) ∧
      (∀ sender oracle pid v, vote st block sender oracle pid v = .error .paused) ∧
      (∀ pid, execute st block pid = .error .paused) ∧
      (∀ pid, close st block pid = .error .paused) ∧
      (∀ self sender oracle pmsg received,
        step self st (.propose block sender oracle pmsg received) = st) ∧
      (∀ self sender pid received,
        step self st (.deposit block sender pid received) = st) ∧
      (∀ self sender pid, step self st (.claimDeposit block sender pid) = st) ∧
      (∀ self sender oracle pid v,
        step self st (.vote block sender oracle pid v) = st) ∧
      (∀ self pid, step self st (.execute block pid) = st) ∧
      (∀ self pid, step self st (.close block pid) = st)) ∧
    (e.is_expired block = true →
      check_paused st block = .ok () ∧
      (∀ sender oracle pmsg received,
        propose st block sender oracle pmsg received ≠ .error .paused) ∧
      (∀ sender pid received, deposit st block sender pid received ≠ .error .paused) ∧
      (∀ sender pid, claim_deposit st block sender pid ≠ .error .paused) ∧
      (∀ sender oracle pid v, vote st block sender oracle pid v ≠ .error .paused) ∧
      (∀ pid, execute st block pid ≠ .error .paused) ∧
      (∀ pid, close st block pid ≠ .error .paused)) := by
  constructor
  · intro hlive
    have hpause : check_paused st block = .error .paused := by
      simp [check_paused, hp, hlive]
    refine ⟨?_, ?_, ?_, ?_, ?_, ?_, ?_, ?_, ?_, ?_, ?_, ?_⟩
    · intro sender oracle pmsg received
      simp [propose, hpause]
    · intro sender pid received
      simp [deposit, hpause]
    · intro sender pid
      simp [claim_deposit, hpause]
    · intro sender oracle pid v
      simp [vote, hpause]
    · intro pid
      simp [execute, hpause]
    · intro pid
      simp [close, hpause]
    · intro self sender oracle pmsg received
      simp [step, propose, hpause]
    · intro self sender pid received
      simp [step, deposit, hpause]
    · intro self sender pid
      simp [step, claim_deposit, hpause]
    · intro self sender oracle pid v
      simp [step, vote, hpause]
    · intro self pid
      simp [step, execute, hpause]
    · intro self pid
      simp [step, close, hpause]
  · intro hexp
    have hpause : check_paused st block = .ok () := by
      simp [check_paused, hp, hexp]
    refine ⟨hpause, ?_, ?_, ?_, ?_, ?_, ?_⟩
    all_goals
      intros
      intro hc
    all_goals
      first
        | simp only [propose, hpause] at hc
        | simp only [deposit, hpause] at hc
        | simp only [claim_deposit, hpause] at hc
        | simp only [vote, hpause] at hc
        | simp only [execute, hpause] at hc
        | simp only [close, hpause] at hc
    all_goals repeat' split at hc
    all_goals try simp at hc
    all_goals
      rename_i heq
      first
        | (have h2 := create_deposit_error_eq _ _ _ _ _ heq
           simp [h2] at hc)
        | (have h2 := update_proposal_status_error_eq _ _ _ _ _ heq
           simp [h2] at hc)
        | (have h2 := make_deposit_claimable_error_eq _ _ _ _ heq
           simp [h2] at hc)
        | (have h2 := check_status_error_eq _ _ _ heq
           simp [h2] at hc)
        | (repeat' split at heq
           all_goals simp_all)

end IonDao

namespace IonDao

/-- C10 witness: with the DAO paused until height 100, Vote at height 50
fails with `Paused` and leaves storage unchanged, while at height 150 the
pause check succeeds again. -/
theorem c10_pause_gate_witness :
    vote exPausedState ⟨50, 0⟩ "alice" exOracle 1 .yes = .error .paused ∧
    step "self" exPausedState (.vote ⟨50, 0⟩ "alice" exOracle 1 .yes) = exPausedState ∧
    check_paused exPausedState ⟨150, 0⟩ = .ok () :=
  ⟨((c10_pause_gate exPausedState ⟨50, 0⟩ (.atHeight 100) rfl).1
      (by decide)).2.2.2.1 "alice" exOracle 1 .yes,
   ((c10_pause_gate exPausedState ⟨50, 0⟩ (.atHeight 100) rfl).1
      (by decide)).2.2.2.2.2.2.2.2.2.1 "self" "alice" exOracle 1 .yes,
   ((c10_pause_gate exPausedState ⟨150, 0⟩ (.atHeight 100) rfl).2 (by decide)).1⟩

end IonDao

namespace IonDao

/-! ### C7 — vote guards and historical-height weight lookup -/

/-- C7: Vote is legal only while the stored status is Open (anything else
is an invalid-status error); an expired voting window yields the temporal
`Expired` error; the voter's weight is read from the oracle exclusively at
`vote_starts_at.height` — two oracles agreeing at that single point give
identical results, so the caller's current height is never consulted — and
weight 0 fails as `Unauthorized` with storage unchanged. -/
theorem c7_vote_guards (st : Storage) (block : BlockTime) (sender : String)
    (oracle : Oracle) (pid : Nat) (v : Vote) (prop : Proposal)
    (hpause : check_paused st block = .ok ())
    (hp : mfind st.proposals pid = some prop) :
    (prop.status ≠ .opened →
      vote st block sender oracle pid v =
        .error (.invalidProposalStatus prop.status.debug_str "Open")) ∧
    (prop.status = .opened → prop.vote_ends_at.is_expired block = true →
      vote st block sender oracle pid v = .error .expired) ∧
    (prop.status = .opened → prop.vote_ends_at.is_expired block = false →
      oracle.power_at sender prop.vote_starts_at.height = 0 →
      vote st block sender oracle pid v = .error .unauthorized ∧
      ∀ self, step self st (.vote block sender oracle pid v) = st) ∧
    (∀ oracle2 : Oracle,
      oracle2.power_at sender prop.vote_starts_at.height =
        oracle.power_at sender prop.vote_starts_at.height →
      vote st block sender oracle2 pid v = vote st block sender oracle pid v) := by
  refine ⟨?_, ?_, ?_, ?_⟩
  · intro hstat
    simp [vote, hpause, hp, check_status, hstat, Status.debug_str]
  · intro hstat hexp
    simp [vote, hpause, hp, check_status, hstat, hexp]
  · intro hstat hexp hzero
    have hv : vote st block sender oracle pid v = .error .unauthorized := by
      simp [vote, hpause, hp, check_status, hstat, hexp,
        get_voting_power_at_height, hzero]
    exact ⟨hv, fun self => by simp [step, hv]⟩
  · intro oracle2 hagree
    simp only [vote, hpause, hp, get_voting_power_at_height, hagree]

/-- C7 witness: on an open, unexpired proposal a voter whose snapshot
weight is zero is rejected as unauthorized and the state is unchanged. -/
theorem c7_vote_guards_witness :
    vote exOpenState ⟨50, 0⟩ "alice" exZeroOracle 1 .yes = .error .unauthorized ∧
    step "self" exOpenState (.vote ⟨50, 0⟩ "alice" exZeroOracle 1 .yes) = exOpenState :=
  let h := (c7_vote_guards exOpenState ⟨50, 0⟩ "alice" exZeroOracle 1 .yes exOpenProp
    rfl rfl).2.2.1 (by decide) (by decide) rfl
  ⟨h.1, h.2 "self"⟩

end IonDao

namespace IonDao

/-! ### C6 — close transitions -/

/-- C6: Close from Pending succeeds only once the deposit window has
expired with the requirement unmet (→ Rejected, `confiscate`, no messages,
deposits not claimable); from Open only once the voting window has expired
with the recomputed outcome Rejected — deposits become claimable
(`refund`) unless the proposal is vetoed, in which case `confiscate`; all
other statuses give an invalid-transition error naming current vs expected
status. -/
theorem c6_close_transitions (st : Storage) (block : BlockTime) (pid : Nat)
    (prop : Proposal)
    (hpause : check_paused st block = .ok ())
    (hp : mfind st.proposals pid = some prop) :
    (prop.status = .pending → prop.deposit_ends_at.is_expired block = false →
      close st block pid = .error .notExpired) ∧
    (prop.status = .pending → prop.deposit_ends_at.is_expired block = true →
      prop.deposit_base_amount ≤ prop.total_deposit →
      close st block pid = .error (.invalidProposalStatus "Open" "Rejected")) ∧
    (prop.status = .pending → prop.deposit_ends_at.is_expired block = true →
      prop.total_deposit < prop.deposit_base_amount →
      ∃ st1, close st block pid = .ok (st1, [], "confiscate") ∧
        mfind st1.proposals pid = some { prop with status := .rejected }) ∧
    (prop.status = .opened → prop.vote_ends_at.is_expired block = false →
      close st block pid = .error .notExpired) ∧
    (prop.status = .opened → prop.vote_ends_at.is_expired block = true →
      prop.is_passed = true →
      close st block pid = .error (.invalidProposalStatus "Passed" "Rejected")) ∧
    (prop.status = .opened → prop.vote_ends_at.is_expired block = true →
      prop.is_passed = false → prop.is_vetoed = true →
      ∃ st1, close st block pid = .ok (st1, [], "confiscate") ∧
        mfind st1.proposals pid = some { prop with status := .rejected }) ∧
    (prop.status = .opened → prop.vote_ends_at.is_expired block = true →
      prop.is_passed = false → prop.is_vetoed = false →
      ∃ st1, close st block pid = .ok (st1, [], "refund") ∧
        mfind st1.proposals pid =
          some { prop with status := .rejected, deposit_claimable := true }) ∧
    (prop.status ≠ .pending → prop.status ≠ .opened →
      close st block pid =
        .error (.invalidProposalStatus prop.status.debug_str "pending | open")) := by
  refine ⟨?_, ?_, ?_, ?_, ?_, ?_, ?_, ?_⟩
  · intro hstat hexp
    simp [close, hpause, hp, hstat, hexp]
  · intro hstat hexp hmet
    simp [close, hpause, hp, hstat, hexp, Proposal.current_status, hmet,
      check_status, Status.debug_str]
  · intro hstat hexp hunmet
    have hnm : ¬(prop.deposit_base_amount ≤ prop.total_deposit) := by omega
    refine ⟨{ st with
        proposals := msave st.proposals pid { prop with status := .rejected }
        idx_props_by_status :=
          sinsert (sdel st.idx_props_by_status (prop.status.code, pid))
            (Status.rejected.code, pid) }, ?_, ?_⟩
    · simp [close, hpause, hp, hstat, hexp, Proposal.current_status, hnm,
        check_status, update_proposal_status]
    · exact mfind_msave_self _ _ _
  · intro hstat hexp
    simp [close, hpause, hp, hstat, hexp]
  · intro hstat hexp hpass
    simp [close, hpause, hp, hstat, hexp, Proposal.current_status, hpass,
      check_status, Status.debug_str]
  · intro hstat hexp hpass hveto
    refine ⟨{ st with
        proposals := msave st.proposals pid { prop with status := .rejected }
        idx_props_by_status :=
          sinsert (sdel st.idx_props_by_status (prop.status.code, pid))
            (Status.rejected.code, pid) }, ?_, ?_⟩
    · simp [close, hpause, hp, hstat, hexp, Proposal.current_status, hpass,
        check_status, update_proposal_status, Proposal.is_vetoed] at hveto ⊢
      simp [hveto]
    · exact mfind_msave_self _ _ _
  · intro hstat hexp hpass hveto
    refine ⟨{ st with
        proposals := msave (msave st.proposals pid { prop with status := .rejected })
          pid { prop with status := .rejected, deposit_claimable := true }
        idx_props_by_status :=
          sinsert (sdel st.idx_props_by_status (prop.status.code, pid))
            (Status.rejected.code, pid) }, ?_, ?_⟩
    · simp [close, hpause, hp, hstat, hexp, Proposal.current_status, hpass,
        check_status, update_proposal_status, make_deposit_claimable,
        Proposal.is_vetoed, mfind_msave_self] at hveto ⊢
      simp [hveto]
    · rw [mfind_msave_self]
  · intro hs1 hs2
    cases hstat : prop.status <;> simp_all [close, hpause, hp, check_status,
      Status.debug_str]

end IonDao

namespace IonDao

/-- C6 witness: closing the Pending proposal after its deposit window
expired (height 70) with the requirement unmet confiscates — the call
succeeds with result `"confiscate"` and the stored status becomes
Rejected. -/
theorem c6_close_transitions_witness :
    ∃ st1, close exDepositState ⟨70, 0⟩ 1 = .ok (st1, [], "confiscate") ∧
      mfind st1.proposals 1 = some { exPendingProp with status := .rejected } := by
  exact (c6_close_transitions exDepositState ⟨70, 0⟩ 1 exPendingProp rfl rfl).2.2.1
    (by decide) (by decide) (by decide)

end IonDao

namespace IonDao

/-! ### C4 — deposit accumulation and the deposit gate -/

/-- C4 counterexample: with `proposal_deposit = 100` and deposits of 80
("alice") then 30 ("bob"), the proposal opens only after the second
deposit and 10 is refunded to "bob", but the stored `total_deposit` is
110, not 100 — the refunded overpay is still recorded in `total_deposit`
(and in "bob"'s ledger entry), and `deposit` reads no oracle, so nothing
is re-frozen at activation. -/
theorem c4_overpay_counterexample :
    (exDeposit1.map (fun x =>
      ((mfind x.1.proposals 1).map Proposal.status,
       (mfind x.1.proposals 1).map Proposal.total_deposit, x.2.2)) =
      .ok (some .pending, some 80, "pending")) ∧
    (exDeposit2.map (fun x =>
      ((mfind x.1.proposals 1).map Proposal.status,
       (mfind x.1.proposals 1).map Proposal.total_deposit,
       mfind x.1.deposits (1, "alice"), mfind x.1.deposits (1, "bob"),
       x.2.1, x.2.2)) =
      .ok (some .opened, some 110, some ⟨80, false⟩, some ⟨30, false⟩,
           [RespMsg.bankSend "bob" 10 "ion"], "open")) ∧
    (110 : Nat) ≠ 100 := by
  refine ⟨rfl, rfl, by decide⟩

/-- C4 amended: Deposit is legal only while the stored status is Pending
(invalid-status error otherwise, `Expired` once the window has expired, 
`Unauthorized` on a zero payment); a successful deposit accumulates into
the depositor's ledger record (repeat deposits add; the reverse-index
entry is inserted only for a first deposit, so there is one entry per
depositor-proposal pair), adds the full paid amount to `total_deposit`,
and when the cumulative total first reaches the config's
`proposal_deposit` the proposal transitions Pending→Open exactly once with
`vote_starts_at = now` and `vote_ends_at = now + voting_period`, refunding
the overpay to this depositor while `threshold` and `total_weight` stay as
frozen at submission (the stored record changes in no other field). -/
theorem c4_deposit_behavior (st : Storage) (block : BlockTime) (sender : String)
    (pid received : Nat) (prop : Proposal) (old : Deposit)
    (hpause : check_paused st block = .ok ())
    (hp : mfind st.proposals pid = some prop)
    (hold : (mfind st.deposits (pid, sender)).getD default = old)
    (hadd : old.amount + received < UINT128_BOUND) :
    (received = 0 → deposit st block sender pid received = .error .unauthorized) ∧
    (received ≠ 0 → prop.status ≠ .pending →
      deposit st block sender pid received =
        .error (.invalidProposalStatus prop.status.debug_str "Pending")) ∧
    (received ≠ 0 → prop.status = .pending →
      prop.deposit_ends_at.is_expired block = true →
      deposit st block sender pid received = .error .expired) ∧
    (received ≠ 0 → prop.status = .pending →
      prop.deposit_ends_at.is_expired block = false →
      prop.total_deposit + received < st.config.proposal_deposit →
      (deposit st block sender pid received).map (fun x =>
        (mfind x.1.proposals pid, mfind x.1.deposits (pid, sender),
         decide ((sender, pid) ∈ x.1.idx_deposits_by_depositor),
         x.2.1, x.2.2)) =
      .ok (some { prop with total_deposit := prop.total_deposit + received },
           some { old with amount := old.amount + received },
           if old.amount = 0 then true
           else decide ((sender, pid) ∈ st.idx_deposits_by_depositor),
           [], "pending")) ∧
    (received ≠ 0 → prop.status = .pending →
      prop.deposit_ends_at.is_expired block = false →
      st.config.proposal_deposit ≤ prop.total_deposit + received →
      (deposit st block sender pid received).map (fun x =>
        (mfind x.1.proposals pid, mfind x.1.deposits (pid, sender),
         decide ((sender, pid) ∈ x.1.idx_deposits_by_depositor),
         x.2.1, x.2.2)) =
      .ok (some { prop with
              total_deposit := prop.total_deposit + received
              status := .opened
              vote_starts_at := block
              vote_ends_at := duration_to_expiry block st.config.voting_period },
           some { old with amount := old.amount + received },
           if old.amount = 0 then true
           else decide ((sender, pid) ∈ st.idx_deposits_by_depositor),
           if 0 < prop.total_deposit + received - st.config.proposal_deposit then
             [RespMsg.bankSend sender
               (prop.total_deposit + received - st.config.proposal_deposit)
               st.gov_token]
           else [],
           "open")) := by
  refine ⟨?_, ?_, ?_, ?_, ?_⟩
  · intro h0
    simp [deposit, hpause, h0]
  · intro h0 hstat
    simp [deposit, hpause, h0, hp, check_status, hstat, Status.debug_str]
  · intro h0 hstat hexp
    simp [deposit, hpause, h0, hp, check_status, hstat, hexp]
  · intro h0 hstat hexp hlt
    have hnle : ¬(st.config.proposal_deposit ≤ prop.total_deposit + received) := by
      omega
    by_cases hz : old.amount = 0
    · have hadd2 : received < UINT128_BOUND := by omega
      have hres : deposit st block sender pid received =
          .ok ({ st with
                  proposals := msave st.proposals pid
                    { prop with total_deposit := prop.total_deposit + received }
                  deposits := msave st.deposits (pid, sender)
                    { old with amount := old.amount + received }
                  idx_deposits_by_depositor :=
                    sinsert st.idx_deposits_by_depositor (sender, pid) },
               [], "pending") := by
        simp [deposit, hpause, h0, hp, check_status, hstat, hexp, create_deposit,
          hold, hz, checked_add, hadd2, hnle]
      rw [hres, except_map_ok]
      simp [mfind_msave_self, mem_sinsert, hz]
    · have hres : deposit st block sender pid received =
          .ok ({ st with
                  proposals := msave st.proposals pid
                    { prop with total_deposit := prop.total_deposit + received }
                  deposits := msave st.deposits (pid, sender)
                    { old with amount := old.amount + received } },
               [], "pending") := by
        simp [deposit, hpause, h0, hp, check_status, hstat, hexp, create_deposit,
          hold, hz, checked_add, hadd, hnle]
      rw [hres, except_map_ok]
      simp [mfind_msave_self, hz]
  · intro h0 hstat hexp hle
    by_cases hz : old.amount = 0
    · have hadd2 : received < UINT128_BOUND := by omega
      have hres : deposit st block sender pid received =
          .ok ({ st with
                  proposals := msave (msave st.proposals pid
                      { prop with status := .opened }) pid
                    { prop with
                        total_deposit := prop.total_deposit + received
                        status := .opened
                        vote_starts_at := block
                        vote_ends_at := duration_to_expiry block st.config.voting_period }
                  idx_props_by_status :=
                    sinsert (sdel st.idx_props_by_status (prop.status.code, pid))
                      (Status.opened.code, pid)
                  deposits := msave st.deposits (pid, sender)
                    { old with amount := old.amount + received }
                  idx_deposits_by_depositor :=
                    sinsert st.idx_deposits_by_depositor (sender, pid) },
               if 0 < prop.total_deposit + received - st.config.proposal_deposit then
                 [RespMsg.bankSend sender
                   (prop.total_deposit + received - st.config.proposal_deposit)
                   st.gov_token]
               else [],
               "open") := by
        simp [deposit, hpause, h0, hp, check_status, hstat, hexp, create_deposit,
          hold, hz, checked_add, hadd2, hle, update_proposal_status,
          Proposal.activate_voting_period]
      rw [hres, except_map_ok]
      simp [mfind_msave_self, mem_sinsert, hz]
    · have hres : deposit st block sender pid received =
          .ok ({ st with
                  proposals := msave (msave st.proposals pid
                      { prop with status := .opened }) pid
                    { prop with
                        total_deposit := prop.total_deposit + received
                        status := .opened
                        vote_starts_at := block
                        vote_ends_at := duration_to_expiry block st.config.voting_period }
                  idx_props_by_status :=
                    sinsert (sdel st.idx_props_by_status (prop.status.code, pid))
                      (Status.opened.code, pid)
                  deposits := msave st.deposits (pid, sender)
                    { old with amount := old.amount + received } },
               if 0 < prop.total_deposit + received - st.config.proposal_deposit then
                 [RespMsg.bankSend sender
                   (prop.total_deposit + received - st.config.proposal_deposit)
                   st.gov_token]
               else [],
               "open") := by
        simp [deposit, hpause, h0, hp, check_status, hstat, hexp, create_deposit,
          hold, hz, checked_add, hadd, hle, update_proposal_status,
          Proposal.activate_voting_period]
      rw [hres, except_map_ok]
      simp [mfind_msave_self, hz]

end IonDao

namespace IonDao

/-- C4 witness: a fresh depositor paying 110 against requirement 100 opens
the Pending proposal, is refunded 10, appears in the ledger and reverse
index, and the stored record keeps its frozen `threshold`/`total_weight`. -/
theorem c4_deposit_behavior_witness :
    (deposit exDepositState ⟨50, 0⟩ "carol" 1 110).map (fun x =>
      (mfind x.1.proposals 1, mfind x.1.deposits (1, "carol"),
       decide (("carol", 1) ∈ x.1.idx_deposits_by_depositor),
       x.2.1, x.2.2)) =
    .ok (some { exPendingProp with
            total_deposit := exPendingProp.total_deposit + 110
            status := .opened
            vote_starts_at := ⟨50, 0⟩
            vote_ends_at := duration_to_expiry ⟨50, 0⟩ exDepositState.config.voting_period },
         some { (default : Deposit) with amount := (default : Deposit).amount + 110 },
         if (default : Deposit).amount = 0 then true
         else decide (("carol", 1) ∈ exDepositState.idx_deposits_by_depositor),
         if 0 < exPendingProp.total_deposit + 110 - exDepositState.config.proposal_deposit then
           [RespMsg.bankSend "carol"
             (exPendingProp.total_deposit + 110 - exDepositState.config.proposal_deposit)
             exDepositState.gov_token]
         else [], "open") :=
  (c4_deposit_behavior exDepositState ⟨50, 0⟩ "carol" 1 110 exPendingProp default
    rfl rfl rfl (by decide)).2.2.2.2 (by decide) rfl (by decide) (by decide)

end IonDao

namespace IonDao

/-! ### Storage-helper characterizations -/

theorem create_deposit_fields (st st' : Storage) (pid : Nat) (d : String)
    (a : Nat) (h : create_deposit st pid d a = .ok st') :
    st'.proposals = st.proposals ∧
    st'.idx_props_by_status = st.idx_props_by_status ∧
    st'.ballots = st.ballots ∧
    st'.proposal_count = st.proposal_count := by
  simp only [create_deposit] at h
  split at h
  · simp at h
  · injection h with h'
    subst h'
    split_ifs <;> simp

theorem update_proposal_status_ok (st : Storage) (pid : Nat)
    (prop p0 : Proposal) (desired : Status)
    (h : mfind st.proposals pid = some p0) :
    update_proposal_status st pid prop desired =
      .ok ({ st with
              proposals := msave st.proposals pid { p0 with status := desired }
              idx_props_by_status :=
                sinsert (sdel st.idx_props_by_status (prop.status.code, pid))
                  (desired.code, pid) },
           { prop with status := desired }) := by
  simp [update_proposal_status, h]

theorem make_deposit_claimable_ok (st : Storage) (pid : Nat)
    (prop p0 : Proposal) (h : mfind st.proposals pid = some p0) :
    make_deposit_claimable st pid prop =
      .ok ({ st with
              proposals := msave st.proposals pid { p0 with deposit_claimable := true } },
           { prop with deposit_claimable := true }) := by
  simp [make_deposit_claimable, h]

/-! ### Invariant preservation -/

theorem inv_of_fields_eq (a b : Storage) (h : Inv a)
    (hprops : b.proposals = a.proposals)
    (hidx : b.idx_props_by_status = a.idx_props_by_status)
    (hball : b.ballots = a.ballots)
    (hcount : b.proposal_count = a.proposal_count) : Inv b := by
  constructor
  · rw [hprops]; exact h.prop_keys_nodup
  · rw [hprops, hcount]; exact h.prop_pid_le
  · rw [hball]; exact h.ballot_keys_nodup
  · rw [hball, hcount]; exact h.ballot_pid_le
  · rw [hidx]; exact h.idx_nodup
  · rw [hidx, hcount]; exact h.idx_pid_le
  · rw [hidx, hprops]; exact h.idx_match
  · rw [hprops, hball]; exact h.tally
  · rw [hprops]; exact h.weight_pos

theorem inv_init (cfg : Config) (gov staking : String) :
    Inv (init_storage cfg gov staking) := by
  constructor <;> simp [init_storage, mfind]

/-- Overwriting a stored proposal with one that keeps its status, votes
and total weight preserves the invariant. -/
theorem inv_msave_prop (st : Storage) (pid : Nat) (p q : Proposal)
    (h : Inv st) (hfind : mfind st.proposals pid = some q)
    (hstatus : p.status = q.status) (hvotes : p.votes = q.votes)
    (hw : p.total_weight = q.total_weight) :
    Inv { st with proposals := msave st.proposals pid p } := by
  have hmem : pid ≤ st.proposal_count :=
    h.prop_pid_le (pid, q) (mfind_mem _ _ _ hfind)
  constructor
  · exact mkeys_nodup_msave _ _ _ h.prop_keys_nodup
  · intro kv hkv
    rcases mem_msave _ _ _ _ hkv with rfl | hm
    · exact hmem
    · exact h.prop_pid_le kv hm
  · exact h.ballot_keys_nodup
  · exact h.ballot_pid_le
  · exact h.idx_nodup
  · exact h.idx_pid_le
  · intro s pid'
    by_cases hpe : pid' = pid
    · subst hpe
      rw [mfind_msave_self]
      constructor
      · intro hmem'
        obtain ⟨p', hfind', hcode⟩ := (h.idx_match s pid').mp hmem'
        rw [hfind] at hfind'
        injection hfind' with hq
        exact ⟨p, rfl, by rw [hstatus, hq]; exact hcode⟩
      · rintro ⟨p', hp', hcode⟩
        injection hp' with hp'
        subst hp'
        exact (h.idx_match s pid').mpr ⟨q, hfind, by rw [← hstatus]; exact hcode⟩
    · rw [mfind_msave_ne _ _ _ _ hpe]
      exact h.idx_match s pid'
  · intro pid' p' hp' o
    by_cases hpe : pid' = pid
    · subst hpe
      rw [mfind_msave_self] at hp'
      injection hp' with hp'
      subst hp'
      rw [hvotes]
      exact h.tally pid' q hfind o
    · rw [mfind_msave_ne _ _ _ _ hpe] at hp'
      exact h.tally pid' p' hp' o
  · intro pid' p' hp'
    by_cases hpe : pid' = pid
    · subst hpe
      rw [mfind_msave_self] at hp'
      injection hp' with hp'
      subst hp'
      rw [hw]
      exact h.weight_pos pid' q hfind
    · rw [mfind_msave_ne _ _ _ _ hpe] at hp'
      exact h.weight_pos pid' p' hp'

end IonDao

namespace IonDao

/-- A committed status change through `update_proposal_status` — replace
the stored record's status and move the by-status index entry — preserves
the invariant. -/
theorem inv_update_status (st : Storage) (pid : Nat) (p0 : Proposal)
    (desired : Status) (h : Inv st)
    (hfind : mfind st.proposals pid = some p0) :
    Inv { st with
          proposals := msave st.proposals pid { p0 with status := desired }
          idx_props_by_status :=
            sinsert (sdel st.idx_props_by_status (p0.status.code, pid))
              (desired.code, pid) } := by
  have hmem : pid ≤ st.proposal_count :=
    h.prop_pid_le (pid, p0) (mfind_mem _ _ _ hfind)
  constructor
  · exact mkeys_nodup_msave _ _ _ h.prop_keys_nodup
  · intro kv hkv
    rcases mem_msave _ _ _ _ hkv with rfl | hm
    · exact hmem
    · exact h.prop_pid_le kv hm
  · exact h.ballot_keys_nodup
  · exact h.ballot_pid_le
  · exact sinsert_nodup _ _ (sdel_nodup _ _ h.idx_nodup)
  · intro e he
    rcases (mem_sinsert _ _ _).mp he with rfl | hm
    · exact hmem
    · exact h.idx_pid_le e ((mem_sdel _ _ _).mp hm).1
  · intro s pid'
    by_cases hpe : pid' = pid
    · subst hpe
      rw [mfind_msave_self]
      constructor
      · intro hmem'
        rcases (mem_sinsert _ _ _).mp hmem' with he | hm
        · have hs : s = desired.code := congrArg Prod.fst he
          exact ⟨_, rfl, hs.symm⟩
        · obtain ⟨hin, hne⟩ := (mem_sdel _ _ _).mp hm
          obtain ⟨p', hfind', hcode⟩ := (h.idx_match s pid').mp hin
          rw [hfind] at hfind'
          injection hfind' with hq
          subst hq
          exact absurd (by rw [hcode]) hne
      · rintro ⟨p', hp', hcode⟩
        injection hp' with hp'
        subst hp'
        exact (mem_sinsert _ _ _).mpr (Or.inl (by rw [← hcode]))
    · rw [mfind_msave_ne _ _ _ _ hpe]
      constructor
      · intro hmem'
        rcases (mem_sinsert _ _ _).mp hmem' with he | hm
        · exact absurd (congrArg Prod.snd he) hpe
        · exact (h.idx_match s pid').mp ((mem_sdel _ _ _).mp hm).1
      · intro hex
        refine (mem_sinsert _ _ _).mpr (Or.inr ((mem_sdel _ _ _).mpr ⟨?_, ?_⟩))
        · exact (h.idx_match s pid').mpr hex
        · intro he
          exact hpe (congrArg Prod.snd he)
  · intro pid' p' hp' o
    by_cases hpe : pid' = pid
    · subst hpe
      rw [mfind_msave_self] at hp'
      injection hp' with hp'
      subst hp'
      exact h.tally pid' p0 hfind o
    · rw [mfind_msave_ne _ _ _ _ hpe] at hp'
      exact h.tally pid' p' hp' o
  · intro pid' p' hp'
    by_cases hpe : pid' = pid
    · subst hpe
      rw [mfind_msave_self] at hp'
      injection hp' with hp'
      subst hp'
      exact h.weight_pos pid' p0 hfind
    · rw [mfind_msave_ne _ _ _ _ hpe] at hp'
      exact h.weight_pos pid' p' hp'

/-- Creating a fresh proposal (id above every existing one) with an empty
tally and positive electorate weight preserves the invariant. -/
theorem inv_create_fresh (st0 stN : Storage) (pid : Nat) (proposer : String)
    (p : Proposal) (h : Inv st0)
    (hpc : stN.proposal_count = pid) (hfresh : st0.proposal_count < pid)
    (hprops : stN.proposals = st0.proposals)
    (hidx : stN.idx_props_by_status = st0.idx_props_by_status)
    (hball : stN.ballots = st0.ballots)
    (hv : p.votes = default) (hw : 0 < p.total_weight) :
    Inv (create_proposal stN pid proposer p) := by
  have hnone : mfind st0.proposals pid = none :=
    mfind_eq_none_of_bound _ st0.proposal_count pid h.prop_pid_le hfresh
  constructor
  · simp only [create_proposal, hprops]
    exact mkeys_nodup_msave _ _ _ h.prop_keys_nodup
  · intro kv hkv
    simp only [create_proposal, hprops] at hkv
    simp only [create_proposal, hpc]
    rcases mem_msave _ _ _ _ hkv with rfl | hm
    · exact le_refl _
    · exact le_trans (h.prop_pid_le kv hm) (le_of_lt hfresh)
  · simp only [create_proposal, hball]
    exact h.ballot_keys_nodup
  · intro kb hkb
    simp only [create_proposal, hball] at hkb
    simp only [create_proposal, hpc]
    exact le_trans (h.ballot_pid_le kb hkb) (le_of_lt hfresh)
  · simp only [create_proposal, hidx]
    exact sinsert_nodup _ _ h.idx_nodup
  · intro e he
    simp only [create_proposal, hidx] at he
    simp only [create_proposal, hpc]
    rcases (mem_sinsert _ _ _).mp he with rfl | hm
    · exact le_refl _
    · exact le_trans (h.idx_pid_le e hm) (le_of_lt hfresh)
  · intro s pid'
    simp only [create_proposal, hidx, hprops]
    by_cases hpe : pid' = pid
    · subst hpe
      rw [mfind_msave_self]
      constructor
      · intro hmem'
        rcases (mem_sinsert _ _ _).mp hmem' with he | hm
        · exact ⟨p, rfl, (congrArg Prod.fst he).symm⟩
        · have := h.idx_pid_le _ hm
          omega
      · rintro ⟨p', hp', hcode⟩
        injection hp' with hp'
        subst hp'
        exact (mem_sinsert _ _ _).mpr (Or.inl (by rw [← hcode]))
    · rw [mfind_msave_ne _ _ _ _ hpe]
      constructor
      · intro hmem'
        rcases (mem_sinsert _ _ _).mp hmem' with he | hm
        · exact absurd (congrArg Prod.snd he) hpe
        · exact (h.idx_match s pid').mp hm
      · intro hex
        exact (mem_sinsert _ _ _).mpr (Or.inr ((h.idx_match s pid').mpr hex))
  · intro pid' p' hp' o
    simp only [create_proposal, hprops, hball] at hp' ⊢
    by_cases hpe : pid' = pid
    · subst hpe
      rw [mfind_msave_self] at hp'
      injection hp' with hp'
      subst hp'
      rw [hv, bsum_zero_of_pid_gt st0.ballots st0.proposal_count pid' o
        h.ballot_pid_le hfresh]
      cases o <;> rfl
    · rw [mfind_msave_ne _ _ _ _ hpe] at hp'
      exact h.tally pid' p' hp' o
  · intro pid' p' hp'
    simp only [create_proposal, hprops] at hp'
    by_cases hpe : pid' = pid
    · subst hpe
      rw [mfind_msave_self] at hp'
      injection hp' with hp'
      subst hp'
      exact hw
    · rw [mfind_msave_ne _ _ _ _ hpe] at hp'
      exact h.weight_pos pid' p' hp'

end IonDao

namespace IonDao

theorem propose_inv (st st' : Storage) (block : BlockTime) (sender : String)
    (oracle : Oracle) (pmsg : ProposeMsg) (received : Nat)
    (msgs : List RespMsg) (id : Nat) (h : Inv st)
    (hok : propose st block sender oracle pmsg received = .ok (st', msgs, id)) :
    Inv st' := by
  simp only [propose] at hok
  split at hok
  · simp at hok
  split at hok
  · simp at hok
  split at hok
  · simp at hok
  split at hok
  · simp at hok
  split at hok
  · simp at hok
  rename_i hsupply _ _ stn heq
  simp only [Except.ok.injEq, Prod.mk.injEq] at hok
  obtain ⟨hst', -, -⟩ := hok
  obtain ⟨hprops, hidx, hball, hcount⟩ :=
    create_deposit_fields _ _ _ _ _ heq
  subst hst'
  refine inv_create_fresh st stn (st.proposal_count + 1) sender _ h ?_
    (by omega) ?_ ?_ ?_ ?_ ?_
  · simpa using hcount
  · simpa using hprops
  · simpa using hidx
  · simpa using hball
  · split_ifs <;> simp [Proposal.activate_voting_period]
  · split_ifs <;> simp [Proposal.activate_voting_period] <;> omega

end IonDao

namespace IonDao

theorem deposit_inv (st st' : Storage) (block : BlockTime) (sender : String)
    (pid received : Nat) (msgs : List RespMsg) (res : String) (h : Inv st)
    (hok : deposit st block sender pid received = .ok (st', msgs, res)) :
    Inv st' := by
  simp only [deposit] at hok
  split at hok
  · simp at hok
  split at hok
  · simp at hok
  split at hok
  · simp at hok
  split at hok
  · simp at hok
  split at hok
  · simp at hok
  split at hok
  · simp at hok
  rename_i prop hprop _ _ _ _ st1 heq
  have hfields := create_deposit_fields _ _ _ _ _ heq
  obtain ⟨hprops, hidx, hball, hcount⟩ := hfields
  have h1 : Inv st1 := inv_of_fields_eq st st1 h hprops hidx hball hcount
  have hfind1 : mfind st1.proposals pid = some prop := by rw [hprops]; exact hprop
  split at hok
  · -- open branch: update_proposal_status then overwrite with activated prop
    rw [update_proposal_status_ok st1 pid _ prop .opened hfind1] at hok
    simp only [Except.ok.injEq, Prod.mk.injEq] at hok
    obtain ⟨hst', -, -⟩ := hok
    subst hst'
    have h2 := inv_update_status st1 pid prop .opened h1 hfind1
    exact inv_msave_prop _ pid _ { prop with status := .opened } h2
      (mfind_msave_self _ _ _) rfl rfl rfl
  · -- pending branch: overwrite with the bumped record
    simp only [Except.ok.injEq, Prod.mk.injEq] at hok
    obtain ⟨hst', -, -⟩ := hok
    subst hst'
    exact inv_msave_prop st1 pid _ prop h1 hfind1 rfl rfl rfl

end IonDao

namespace IonDao

/-- Saving a ballot and the re-tallied proposal preserves the invariant,
provided the new tally equals the new ballot-ledger sums. -/
theorem inv_vote_save (st : Storage) (pid : Nat) (sender : String)
    (prop : Proposal) (vs' : Votes) (W : Nat) (v : Vote) (h : Inv st)
    (hfind : mfind st.proposals pid = some prop)
    (htally : ∀ o, bucket vs' o =
      bsum (msave st.ballots (pid, sender) ⟨W, v⟩) pid o) :
    Inv { st with
          ballots := msave st.ballots (pid, sender) ⟨W, v⟩
          proposals := msave st.proposals pid { prop with votes := vs' } } := by
  have hmem : pid ≤ st.proposal_count :=
    h.prop_pid_le (pid, prop) (mfind_mem _ _ _ hfind)
  constructor
  · exact mkeys_nodup_msave _ _ _ h.prop_keys_nodup
  · intro kv hkv
    rcases mem_msave _ _ _ _ hkv with rfl | hm
    · exact hmem
    · exact h.prop_pid_le kv hm
  · exact mkeys_nodup_msave _ _ _ h.ballot_keys_nodup
  · intro kb hkb
    rcases mem_msave _ _ _ _ hkb with rfl | hm
    · exact hmem
    · exact h.ballot_pid_le kb hm
  · exact h.idx_nodup
  · exact h.idx_pid_le
  · intro s pid'
    by_cases hpe : pid' = pid
    · subst hpe
      rw [mfind_msave_self]
      constructor
      · intro hmem'
        obtain ⟨p', hfind', hcode⟩ := (h.idx_match s pid').mp hmem'
        rw [hfind] at hfind'
        injection hfind' with hq
        subst hq
        exact ⟨_, rfl, hcode⟩
      · rintro ⟨p', hp', hcode⟩
        injection hp' with hp'
        subst hp'
        exact (h.idx_match s pid').mpr ⟨prop, hfind, hcode⟩
    · rw [mfind_msave_ne _ _ _ _ hpe]
      exact h.idx_match s pid'
  · intro pid' p' hp' o
    by_cases hpe : pid' = pid
    · subst hpe
      rw [mfind_msave_self] at hp'
      injection hp' with hp'
      subst hp'
      exact htally o
    · rw [mfind_msave_ne _ _ _ _ hpe] at hp'
      rw [bsum_msave_other_pid _ _ _ _ _ (by simpa using Ne.symm hpe)]
      exact h.tally pid' p' hp' o
  · intro pid' p' hp'
    by_cases hpe : pid' = pid
    · subst hpe
      rw [mfind_msave_self] at hp'
      injection hp' with hp'
      subst hp'
      exact h.weight_pos pid' prop hfind
    · rw [mfind_msave_ne _ _ _ _ hpe] at hp'
      exact h.weight_pos pid' p' hp'

theorem vote_inv (st st' : Storage) (block : BlockTime) (sender : String)
    (oracle : Oracle) (pid : Nat) (v : Vote) (h : Inv st)
    (hok : vote st block sender oracle pid v = .ok st') : Inv st' := by
  simp only [vote] at hok
  cases hpause : check_paused st block with
  | error e => simp [hpause] at hok
  | ok u =>
  cases u
  simp only [hpause] at hok
  cases hfind : mfind st.proposals pid with
  | none => simp [hfind] at hok
  | some prop =>
  simp only [hfind] at hok
  cases hcs : check_status prop.status .opened with
  | error e => simp [hcs] at hok
  | ok u =>
  cases u
  simp only [hcs] at hok
  by_cases hexp : prop.vote_ends_at.is_expired block = true
  · simp [hexp] at hok
  rw [if_neg hexp] at hok
  by_cases hz : get_voting_power_at_height oracle sender prop.vote_starts_at.height = 0
  · simp [hz] at hok
  rw [if_neg hz] at hok
  cases hb : mfind st.ballots (pid, sender) with
  | none =>
    simp only [hb] at hok
    cases hsub : prop.votes.submit v
        (get_voting_power_at_height oracle sender prop.vote_starts_at.height) with
    | none => simp [hsub] at hok
    | some vs' =>
      simp only [hsub, Except.ok.injEq] at hok
      subst hok
      refine inv_vote_save st pid sender prop vs' _ v h hfind ?_
      intro o
      rw [bsum_msave_none _ _ _ _ _ hb]
      have h1 := bucket_submit _ _ _ _ hsub o
      have h2 := h.tally pid prop hfind o
      have hov : (if o = v then
          get_voting_power_at_height oracle sender prop.vote_starts_at.height
          else 0) = contrib (pid, sender)
            ⟨get_voting_power_at_height oracle sender prop.vote_starts_at.height, v⟩
            pid o := by
        simp only [contrib, true_and, eq_self_iff_true]
        by_cases hc : o = v
        · subst hc
          simp
        · have : ¬(v = o) := fun he => hc he.symm
          simp [hc, this]
      rw [hov] at h1
      omega
  | some ballot =>
    simp only [hb] at hok
    cases hrev : prop.votes.revoke ballot.vote ballot.weight with
    | none => simp [hrev] at hok
    | some vs =>
      simp only [hrev] at hok
      cases hsub : vs.submit v
          (get_voting_power_at_height oracle sender prop.vote_starts_at.height) with
      | none => simp [hsub] at hok
      | some vs' =>
        simp only [hsub, Except.ok.injEq] at hok
        subst hok
        refine inv_vote_save st pid sender prop vs' _ v h hfind ?_
        intro o
        have h1 := bucket_submit _ _ _ _ hsub o
        have h2 := bucket_revoke _ _ _ _ hrev o
        have h3 := h.tally pid prop hfind o
        have h4 := bsum_msave_some st.ballots (pid, sender)
          ⟨get_voting_power_at_height oracle sender prop.vote_starts_at.height, v⟩
          ballot pid o hb
        have hov : (if o = v then
            get_voting_power_at_height oracle sender prop.vote_starts_at.height
            else 0) = contrib (pid, sender)
              ⟨get_voting_power_at_height oracle sender prop.vote_starts_at.height, v⟩
              pid o := by
          simp only [contrib, true_and, eq_self_iff_true]
          by_cases hc : o = v
          · subst hc
            simp
          · have : ¬(v = o) := fun he => hc he.symm
            simp [hc, this]
        have hob : (if o = ballot.vote then ballot.weight else 0) =
            contrib (pid, sender) ballot pid o := by
          simp only [contrib, true_and, eq_self_iff_true]
          by_cases hc : o = ballot.vote
          · subst hc
            simp
          · have : ¬(ballot.vote = o) := fun he => hc he.symm
            simp [hc, this]
        rw [hov] at h1
        rw [hob] at h2
        omega

end IonDao

namespace IonDao

theorem claim_deposit_inv (st st' : Storage) (block : BlockTime)
    (sender : String) (pid : Nat) (msgs : List RespMsg) (h : Inv st)
    (hok : claim_deposit st block sender pid = .ok (st', msgs)) : Inv st' := by
  simp only [claim_deposit] at hok
  cases hpause : check_paused st block with
  | error e => simp [hpause] at hok
  | ok u =>
  cases u
  simp only [hpause] at hok
  cases hfind : mfind st.proposals pid with
  | none => simp [hfind] at hok
  | some prop =>
  simp only [hfind] at hok
  split at hok
  · simp at hok
  cases hdep : mfind st.deposits (pid, sender) with
  | none => simp [hdep] at hok
  | some dep =>
  simp only [hdep] at hok
  split at hok
  · simp at hok
  simp only [Except.ok.injEq, Prod.mk.injEq] at hok
  obtain ⟨hst', -⟩ := hok
  subst hst'
  exact inv_of_fields_eq st _ h rfl rfl rfl rfl

theorem pause_dao_inv (st st' : Storage) (c s : String) (e : Expiration)
    (h : Inv st) (hok : pause_dao st c s e = .ok st') : Inv st' := by
  simp only [pause_dao] at hok
  split at hok
  · simp at hok
  · injection hok with hok
    subst hok
    exact inv_of_fields_eq st _ h rfl rfl rfl rfl

theorem update_config_inv (st st' : Storage) (c s : String) (cfg : Config)
    (h : Inv st) (hok : update_config st c s cfg = .ok st') : Inv st' := by
  simp only [update_config] at hok
  split at hok
  · simp at hok
  · split at hok
    · simp at hok
    · injection hok with hok
      subst hok
      exact inv_of_fields_eq st _ h rfl rfl rfl rfl

theorem execute_inv (st st' : Storage) (block : BlockTime) (pid : Nat)
    (msgs : List RespMsg) (h : Inv st)
    (hok : execute st block pid = .ok (st', msgs)) : Inv st' := by
  simp only [execute] at hok
  cases hpause : check_paused st block with
  | error e => simp [hpause] at hok
  | ok u =>
  cases u
  simp only [hpause] at hok
  cases hfind : mfind st.proposals pid with
  | none => simp [hfind] at hok
  | some prop =>
  simp only [hfind] at hok
  by_cases hexp : prop.vote_ends_at.is_expired block = false
  · simp [hexp] at hok
  rw [if_neg hexp] at hok
  cases hcs : check_status (prop.current_status block) .passed with
  | error e => simp [hcs] at hok
  | ok u =>
  cases u
  simp only [hcs] at hok
  simp only [update_proposal_status_ok st pid prop prop .executed hfind] at hok
  split at hok
  · rename_i e heq
    simp [make_deposit_claimable, mfind_msave_self] at heq
  · rename_i st2 prop2 heq
    simp only [make_deposit_claimable, mfind_msave_self, Except.ok.injEq,
      Prod.mk.injEq] at heq
    simp only [Except.ok.injEq, Prod.mk.injEq] at hok
    obtain ⟨hst2, -⟩ := heq
    obtain ⟨hst', -⟩ := hok
    subst hst'
    rw [← hst2]
    exact inv_msave_prop _ pid _ { prop with status := .executed }
      (inv_update_status st pid prop .executed h hfind) (mfind_msave_self _ _ _)
      rfl rfl rfl

end IonDao

namespace IonDao

theorem close_inv (st st' : Storage) (block : BlockTime) (pid : Nat)
    (msgs : List RespMsg) (res : String) (h : Inv st)
    (hok : close st block pid = .ok (st', msgs, res)) : Inv st' := by
  simp only [close] at hok
  cases hpause : check_paused st block with
  | error e => simp [hpause] at hok
  | ok u =>
  cases u
  simp only [hpause] at hok
  cases hfind : mfind st.proposals pid with
  | none => simp [hfind] at hok
  | some prop =>
  simp only [hfind] at hok
  split at hok
  · simp at hok
  cases hcs : check_status (prop.current_status block) .rejected with
  | error e => simp [hcs] at hok
  | ok u =>
  cases u
  simp only [hcs] at hok
  simp only [update_proposal_status_ok st pid prop prop .rejected hfind] at hok
  by_cases hcond : prop.status = Status.opened ∧
      ({ prop with status := Status.rejected }).is_vetoed = false
  · rw [if_pos hcond] at hok
    split at hok
    · rename_i e heq2
      simp [make_deposit_claimable, mfind_msave_self] at heq2
    · rename_i st2 prop2 heq2
      simp only [make_deposit_claimable, mfind_msave_self, Except.ok.injEq,
        Prod.mk.injEq] at heq2
      simp only [Except.ok.injEq, Prod.mk.injEq] at hok
      obtain ⟨hst2, -⟩ := heq2
      obtain ⟨hst', -⟩ := hok
      subst hst'
      rw [← hst2]
      exact inv_msave_prop _ pid _ { prop with status := .rejected }
        (inv_update_status st pid prop .rejected h hfind) (mfind_msave_self _ _ _)
        rfl rfl rfl
  · rw [if_neg hcond] at hok
    simp only [Except.ok.injEq, Prod.mk.injEq] at hok
    obtain ⟨hst', -⟩ := hok
    subst hst'
    exact inv_update_status st pid prop .rejected h hfind

/-- Every call preserves the storage invariant (a failed call keeps the
pre-state). -/
theorem step_inv (self : String) (st : Storage) (op : Op) (h : Inv st) :
    Inv (step self st op) := by
  cases op with
  | propose block sender oracle pmsg received =>
    rcases hres : propose st block sender oracle pmsg received with e | ⟨st', msgs, id⟩
    · simp only [step, hres]
      exact h
    · simp only [step, hres]
      exact propose_inv _ _ _ _ _ _ _ _ _ h hres
  | deposit block sender pid received =>
    rcases hres : deposit st block sender pid received with e | ⟨st', msgs, res⟩
    · simp only [step, hres]
      exact h
    · simp only [step, hres]
      exact deposit_inv _ _ _ _ _ _ _ _ h hres
  | claimDeposit block sender pid =>
    rcases hres : claim_deposit st block sender pid with e | ⟨st', msgs⟩
    · simp only [step, hres]
      exact h
    · simp only [step, hres]
      exact claim_deposit_inv _ _ _ _ _ _ h hres
  | vote block sender oracle pid v =>
    rcases hres : vote st block sender oracle pid v with e | st'
    · simp only [step, hres]
      exact h
    · simp only [step, hres]
      exact vote_inv _ _ _ _ _ _ _ h hres
  | execute block pid =>
    rcases hres : execute st block pid with e | ⟨st', msgs⟩
    · simp only [step, hres]
      exact h
    · simp only [step, hres]
      exact execute_inv _ _ _ _ _ h hres
  | close block pid =>
    rcases hres : close st block pid with e | ⟨st', msgs, res⟩
    · simp only [step, hres]
      exact h
    · simp only [step, hres]
      exact close_inv _ _ _ _ _ _ h hres
  | pauseDao sender expiration =>
    rcases hres : pause_dao st self sender expiration with e | st'
    · simp only [step, hres]
      exact h
    · simp only [step, hres]
      exact pause_dao_inv _ _ _ _ _ h hres
  | updateConfig sender cfg =>
    rcases hres : update_config st self sender cfg with e | st'
    · simp only [step, hres]
      exact h
    · simp only [step, hres]
      exact update_config_inv _ _ _ _ _ h hres

/-- Any call sequence from instantiation maintains the invariant. -/
theorem run_inv (self : String) (st : Storage) (ops : List Op) (h : Inv st) :
    Inv (run self st ops) := by
  induction ops generalizing st with
  | nil => exact h
  | cons op rest ih => exact ih (step self st op) (step_inv self st op h)

end IonDao

namespace IonDao

/-! ### C9 — by-status index consistency -/

/-- C9: after any sequence of calls from instantiation, every stored
proposal's `(status.code, id)` pair is in the by-status index, any index
entry for that id names exactly the committed status (so the pair sits in
exactly one bucket), and conversely every index entry points at a stored
proposal with that committed status. -/
theorem c9_status_index_consistent (cfg : Config) (gov staking self : String)
    (ops : List Op) :
    (∀ pid p,
      mfind (run self (init_storage cfg gov staking) ops).proposals pid = some p →
      ((p.status.code, pid) ∈
          (run self (init_storage cfg gov staking) ops).idx_props_by_status ∧
       ∀ s, (s, pid) ∈
          (run self (init_storage cfg gov staking) ops).idx_props_by_status →
          s = p.status.code)) ∧
    (∀ s pid, (s, pid) ∈
        (run self (init_storage cfg gov staking) ops).idx_props_by_status →
      ∃ p, mfind (run self (init_storage cfg gov staking) ops).proposals pid
          = some p ∧ p.status.code = s) := by
  have h := run_inv self (init_storage cfg gov staking) ops
    (inv_init cfg gov staking)
  refine ⟨fun pid p hp => ⟨?_, fun s hs => ?_⟩,
    fun s pid hs => (h.idx_match s pid).mp hs⟩
  · exact (h.idx_match _ pid).mpr ⟨p, hp, rfl⟩
  · obtain ⟨p', hp', hcode⟩ := (h.idx_match s pid).mp hs
    rw [hp] at hp'
    injection hp' with he
    subst he
    exact hcode.symm

/-! ### C5 — one ballot per voter, no double count, no underflow -/

/-- C5: after any sequence of calls from instantiation there is at most
one ballot per (proposal, voter) key; every tally bucket equals the sum of
the ballot weights cast for it (so re-voting never double-counts a
voter's weight); and every stored ballot's weight fits inside its bucket,
so the revoke-before-submit step of a re-vote can never underflow. -/
theorem c5_ballot_tally (cfg : Config) (gov staking self : String)
    (ops : List Op) :
    (((run self (init_storage cfg gov staking) ops).ballots.map Prod.fst).Nodup) ∧
    (∀ pid p,
      mfind (run self (init_storage cfg gov staking) ops).proposals pid = some p →
      ∀ o, bucket p.votes o =
        bsum (run self (init_storage cfg gov staking) ops).ballots pid o) ∧
    (∀ pid p voter b,
      mfind (run self (init_storage cfg gov staking) ops).proposals pid = some p →
      mfind (run self (init_storage cfg gov staking) ops).ballots (pid, voter)
        = some b →
      b.weight ≤ bucket p.votes b.vote ∧
      (p.votes.revoke b.vote b.weight).isSome = true) := by
  have h := run_inv self (init_storage cfg gov staking) ops
    (inv_init cfg gov staking)
  refine ⟨h.ballot_keys_nodup, h.tally, fun pid p voter b hp hb => ?_⟩
  have hle : b.weight ≤ bucket p.votes b.vote := by
    rw [h.tally pid p hp b.vote]
    have hc := contrib_le_bsum _ (pid, voter) b pid b.vote hb
    simpa [contrib] using hc
  exact ⟨hle, (revoke_isSome_iff _ _ _).mpr hle⟩

end IonDao

namespace IonDao

/-- C9 witness: after the propose-then-vote history the stored proposal
(id 1, status Open) appears in the index bucket of its committed status,
and that is the only bucket holding id 1. -/
theorem c9_status_index_consistent_witness :
    ∃ p, mfind (run "dao" (init_storage exConfig "ion" "stk") exOps).proposals 1
        = some p ∧
      (p.status.code, 1) ∈
        (run "dao" (init_storage exConfig "ion" "stk") exOps).idx_props_by_status ∧
      ∀ s, (s, 1) ∈
        (run "dao" (init_storage exConfig "ion" "stk") exOps).idx_props_by_status →
        s = p.status.code := by
  obtain ⟨h1, h2⟩ :=
    (c9_status_index_consistent exConfig "ion" "stk" "dao" exOps).1 1 _ rfl
  exact ⟨_, rfl, h1, h2⟩

/-- C5 witness: in the same history "bob"'s ballot (weight 10, yes) is the
only ballot, the yes bucket equals its ledger sum, and revoking it cannot
underflow. -/
theorem c5_ballot_tally_witness :
    ∃ p b,
      mfind (run "dao" (init_storage exConfig "ion" "stk") exOps).proposals 1
        = some p ∧
      mfind (run "dao" (init_storage exConfig "ion" "stk") exOps).ballots
        (1, "bob") = some b ∧
      b.weight ≤ bucket p.votes b.vote ∧
      (p.votes.revoke b.vote b.weight).isSome = true := by
  obtain ⟨hle, hrev⟩ :=
    (c5_ballot_tally exConfig "ion" "stk" "dao" exOps).2.2 1 _ "bob" _ rfl rfl
  exact ⟨_, _, rfl, rfl, hle, hrev⟩

end IonDao

namespace IonDao

/-! ### C8 — propose guards -/

/-- C8: Propose fails `Unauthorized` when the payment is below
`proposal_min_deposit` and `LackOfStakes` when the staked supply is zero —
so no proposal is ever stored with `total_weight = 0`, over any call
sequence; on success it stores, under the next id, the record with
`deposit_ends_at = now + deposit_period` and the frozen threshold and
total weight, activated (`Open`, with the excess over `proposal_deposit`
refunded to the proposer) exactly when `paid ≥ proposal_deposit`, else
left Pending with `total_deposit = paid`. -/
theorem c8_propose_guards (st : Storage) (block : BlockTime) (sender : String)
    (oracle : Oracle) (pmsg : ProposeMsg) (received : Nat)
    (hpause : check_paused st block = .ok ()) :
    (received < st.config.proposal_min_deposit →
      propose st block sender oracle pmsg received = .error .unauthorized) ∧
    (st.config.proposal_min_deposit ≤ received → oracle.total_staked = 0 →
      propose st block sender oracle pmsg received = .error .lackOfStakes) ∧
    (∀ dv, st.config.proposal_min_deposit ≤ received → oracle.total_staked ≠ 0 →
      Duration.add st.config.deposit_period st.config.voting_period = some dv →
      mfind st.deposits (st.proposal_count + 1, sender) = none →
      received < UINT128_BOUND →
      (propose st block sender oracle pmsg received).map (fun x =>
        (mfind x.1.proposals (st.proposal_count + 1), x.2.1, x.2.2)) =
      .ok (some (if st.config.proposal_deposit ≤ received then
              (proposed_record st block sender oracle pmsg received
                dv).activate_voting_period block st.config.voting_period
            else proposed_record st block sender oracle pmsg received dv),
           (if st.config.proposal_deposit ≤ received then
              (if 0 < received - st.config.proposal_deposit then
                [RespMsg.bankSend sender (received - st.config.proposal_deposit)
                  st.gov_token]
               else [])
            else []),
           st.proposal_count + 1)) ∧
    (∀ cfg gov staking self ops pid p,
      mfind (run self (init_storage cfg gov staking) ops).proposals pid = some p →
      0 < p.total_weight) := by
  refine ⟨?_, ?_, ?_, ?_⟩
  · intro hlt
    simp [propose, hpause, hlt]
  · intro hmin hsup
    simp [propose, hpause, not_lt.mpr hmin, hsup]
  · intro dv hmin hsup hdur hfresh hbound
    have hdz : (default : Deposit).amount = 0 := rfl
    have hdc : (default : Deposit).claimed = false := rfl
    simp [propose, hpause, not_lt.mpr hmin, hsup, hdur, create_deposit, hfresh,
      hdz, hdc, checked_add, hbound, create_proposal, mfind_msave_self,
      except_map_ok, proposed_record, Proposal.activate_voting_period]
    split_ifs <;> first | rfl | omega | simp
  · intro cfg gov staking self ops pid p hp
    exact (run_inv self (init_storage cfg gov staking) ops
      (inv_init cfg gov staking)).weight_pos pid p hp

end IonDao

namespace IonDao

/-- C8 witness: proposing with the full 100 deposit on a fresh contract
stores proposal 1 activated (no refund, gap 0), and proposing against a
zero-stake oracle fails with the lack-of-stakes error. -/
theorem c8_propose_guards_witness :
    ((propose (init_storage exConfig "ion" "stk") ⟨10, 0⟩ "alice" exOracle
        exProposeMsg 100).map (fun x =>
        (mfind x.1.proposals ((init_storage exConfig "ion" "stk").proposal_count + 1),
         x.2.1, x.2.2)) =
      .ok (some (if (init_storage exConfig "ion" "stk").config.proposal_deposit ≤ 100 then
              (proposed_record (init_storage exConfig "ion" "stk") ⟨10, 0⟩ "alice"
                exOracle exProposeMsg 100
                (.height 25)).activate_voting_period ⟨10, 0⟩
                (init_storage exConfig "ion" "stk").config.voting_period
            else proposed_record (init_storage exConfig "ion" "stk") ⟨10, 0⟩ "alice"
              exOracle exProposeMsg 100 (.height 25)),
           (if (init_storage exConfig "ion" "stk").config.proposal_deposit ≤ 100 then
              (if 0 < 100 - (init_storage exConfig "ion" "stk").config.proposal_deposit then
                [RespMsg.bankSend "alice"
                  (100 - (init_storage exConfig "ion" "stk").config.proposal_deposit)
                  (init_storage exConfig "ion" "stk").gov_token]
               else [])
            else []),
           (init_storage exConfig "ion" "stk").proposal_count + 1)) ∧
    propose (init_storage exConfig "ion" "stk") ⟨10, 0⟩ "zed" exZeroSupplyOracle
        exProposeMsg 100 = .error .lackOfStakes :=
  ⟨(c8_propose_guards (init_storage exConfig "ion" "stk") ⟨10, 0⟩ "alice"
      exOracle exProposeMsg 100 rfl).2.2.1 (.height 25) (by decide) (by decide)
      rfl rfl (by decide),
   (c8_propose_guards (init_storage exConfig "ion" "stk") ⟨10, 0⟩ "zed"
      exZeroSupplyOracle exProposeMsg 100 rfl).2.1 (by decide) rfl⟩

end IonDao
